import Mathlib

/-!
# uGFX: oscilloscope trigger loop and image widget

A shallow embedding of

* `demos/modules/gaudin/gwinosc.c` : `gwinCreateScope`, `gwinWaitForScopeTrace`
* `src/gwin/gimage.c` : `_redraw`, `gwinImageOpenMemory`, `gwinImageOpenFile`,
  `gwinImageOpenStream`

Conventions.

* `coord_t` and `int` values are integers (`Int`); C division is truncating
  division (`Int.tdiv`).  Raw audio samples are unsigned (`Nat`).  The scaled
  value `y` and `yoffset` are narrowed to the 16 bits of `coord_t` where the
  source assigns them (`toCoord`); cursor, pixel and rectangle arithmetic is
  left exact.
* Compile-time switches (`TRIGGER_METHOD`, `GAUDIN_BITS_PER_SAMPLE`,
  `SCOPE_Y_BITS`, `GDISP_NEED_CLIP`) live in headers and are parameters, see
  `ScopeConfig`.
* Calls into the display driver and the image decoder are recorded in a log.
  What the decoder answers is a parameter (`ImageDecoder`), and so is what
  window creation and the allocator answer to `gwinCreateScope` (`CreateEnv`).
* The trace buffer is a list; the pointer `pc` is its offset from
  `gs->lastscopetrace`.  Every buffer access is recorded in the log with its
  index.  An access outside the list is outside the C semantics; the model
  reads 0 and drops the write there.
-/

namespace UGFX

/-! ## Oscilloscope (`gwinosc.c`) -/

/-- The values of `TRIGGER_METHOD` the source distinguishes. -/
inductive TriggerMethod where
  | none
  | positiveRamp
  | minValue
  deriving DecidableEq, Repr

/-- Compile-time configuration of `gwinosc.c`. -/
structure ScopeConfig where
  /-- C `TRIGGER_METHOD` -/
  triggerMethod : TriggerMethod
  /-- C `GAUDIN_BITS_PER_SAMPLE` -/
  gaudinBits : Nat
  /-- C `SCOPE_Y_BITS` -/
  scopeYBits : Nat
  /-- C `GDISP_NEED_CLIP` -/
  needClip : Bool
  deriving DecidableEq, Repr

/-- The constant `#define FLATLINE_SAMPLES 8` (gwinosc.c:53). -/
def FLATLINE_SAMPLES : Int := 8

/-- The fields of `GScopeObject` (with its base `GWindowObject`) that
`gwinWaitForScopeTrace` reads or writes. -/
structure GScopeObject where
  /-- C `gh->x` -/
  x : Int
  /-- C `gh->y` -/
  y : Int
  /-- C `gh->width` -/
  width : Int
  /-- C `gh->height` -/
  height : Int
  /-- C `gh->color` -/
  color : Nat
  /-- C `gh->bgcolor` -/
  bgcolor : Nat
  /-- C `gs->lastscopetrace`, allocated with `gh->width` entries -/
  lastscopetrace : List Int
  /-- C `gs->nextx` -/
  nextx : Int
  /-- C `gs->lasty` -/
  lasty : Int
  /-- C `gs->scopemin` -/
  scopemin : Int
  deriving DecidableEq, Repr

/-- What `gwinWaitForScopeTrace` does to the outside, in program order. -/
inductive ScopeEvent where
  /-- C `gdispSetClip(x, y, w, h)` -/
  | setClip (x y w h : Int)
  /-- C `gdispDrawPixel(x, y, color)` -/
  | drawPixel (x y : Int) (color : Nat)
  /-- a read of `pc[0]`, with `pc` at the given offset -/
  | traceRead (index : Int)
  /-- the write `*pc = v`, with `pc` at the given offset -/
  | traceWrite (index : Int) (v : Int)
  deriving DecidableEq, Repr

/-- The path one loop iteration takes through the body (gwinosc.c:120-187). -/
inductive Branch where
  /-- C `x < gh->width`: the sample is drawn at the cursor -/
  | plotted
  /-- line 150: flat-line sample below the run length, `continue` -/
  | flatSkip
  /-- line 159: `y > gs->lasty`, `continue` -/
  | armSkip
  /-- line 165: `y < gs->lasty` and not armed, `continue` -/
  | unarmedSkip
  /-- lines 149-151 fall through: flat-line run length reached, cursor reset -/
  | flatTrigger
  /-- lines 160-166 fall through: armed and `y < gs->lasty`, cursor reset -/
  | edgeTrigger
  /-- no trigger method compiled in: cursor reset at the trace end -/
  | wrap
  deriving DecidableEq, Repr

/-- Whether the iteration executed `x = 0; pc = gs->lastscopetrace;` under a
trigger policy. -/
def Branch.isTrigger : Branch → Bool
  | .flatTrigger => true
  | .edgeTrigger => true
  | _ => false

/-- The object and the locals of `gwinWaitForScopeTrace` during the loop,
with the log of events and of branches taken so far. -/
structure LoopState where
  gs : GScopeObject
  /-- C `coord_t x` -/
  x : Int
  /-- C `coord_t *pc`, as an offset from `gs->lastscopetrace` -/
  pc : Int
  /-- C `coord_t yoffset` -/
  yoffset : Int
  /-- C `bool_t rdytrigger` -/
  rdytrigger : Bool
  /-- C `int flsamples` -/
  flsamples : Int
  /-- C `coord_t scopemin` (the local) -/
  scopemin : Int
  events : List ScopeEvent
  branches : List Branch
  deriving DecidableEq, Repr

/-- The value of `pc[0]` for `pc = gs->lastscopetrace + i`. -/
def readTrace (buf : List Int) (i : Int) : Int :=
  if 0 ≤ i then buf.getD i.toNat 0 else 0

/-- The buffer after `*pc = v` for `pc = gs->lastscopetrace + i`. -/
def writeTrace (buf : List Int) (i : Int) (v : Int) : List Int :=
  if 0 ≤ i then buf.set i.toNat v else buf

/-- The value a `coord_t` variable holds after an `int` value is assigned to
it.  The type `coord_t` is declared in the display header, outside these
sources, as `int16_t`: the assignment keeps the value modulo 2^16, in the
range -32768 .. 32767.  The result is the same whether the `int` value was
itself computed exactly or modulo a larger power of two. -/
def toCoord (v : Int) : Int :=
  (v + 32768) % 65536 - 32768

/-- Line 107: `yoffset = gh->height/2 + (1<<SCOPE_Y_BITS)/2`, computed in `int`
and stored in the `coord_t` local `yoffset` (line 87). -/
def yoffsetOf (cfg : ScopeConfig) (height : Int) : Int :=
  toCoord (Int.tdiv height 2 + (((1 <<< cfg.scopeYBits : Nat) / 2 : Nat) : Int))

/-- Lines 123-127: the new scope value `y` for the raw sample `*pa`, computed
in `int` and stored in the `coord_t` local `y` (line 86). -/
def scaleSample (cfg : ScopeConfig) (yoffset : Int) (s : Nat) : Int :=
  if cfg.gaudinBits > cfg.scopeYBits then
    toCoord (yoffset - ((s >>> (cfg.gaudinBits - cfg.scopeYBits) : Nat) : Int))
  else
    toCoord (yoffset - ((s <<< (cfg.scopeYBits - cfg.gaudinBits) : Nat) : Int))

/-- Lines 173-174: `x = 0; pc = gs->lastscopetrace;`. -/
def resetCursor (st : LoopState) : LoopState :=
  { st with x := 0, pc := 0 }

/-- Lines 177-186: clear the old pixel, draw the new one, save the value,
advance, and (under a trigger policy) record `gs->lasty = y`. -/
def plot (cfg : ScopeConfig) (st : LoopState) (y : Int) (b : Branch) : LoopState :=
  let old := readTrace st.gs.lastscopetrace st.pc
  let gs1 := { st.gs with lastscopetrace := writeTrace st.gs.lastscopetrace st.pc y }
  let gs2 := if cfg.triggerMethod = TriggerMethod.none then gs1 else { gs1 with lasty := y }
  { st with
    gs := gs2
    x := st.x + 1
    pc := st.pc + 1
    events := st.events ++
      [ ScopeEvent.traceRead st.pc,
        ScopeEvent.drawPixel (st.gs.x + st.x) (st.gs.y + old) st.gs.bgcolor,
        ScopeEvent.drawPixel (st.gs.x + st.x) (st.gs.y + y) st.gs.color,
        ScopeEvent.traceWrite st.pc y ]
    branches := st.branches ++ [b] }

/-- A `continue`: the iteration ends without drawing. -/
def skip (st : LoopState) (b : Branch) : LoopState :=
  { st with branches := st.branches ++ [b] }

/-- Lines 138-170 for the two trigger policies, entered with `x >= gh->width`. -/
def triggerStep (cfg : ScopeConfig) (st0 : LoopState) (y : Int) : LoopState :=
  -- lines 141-145 (TRIGGER_MINVALUE only)
  let st :=
    if cfg.triggerMethod = TriggerMethod.minValue ∧ st0.rdytrigger = false ∧ y ≥ st0.gs.scopemin then
      { st0 with rdytrigger := true }
    else st0
  if y = st.gs.lasty then
    -- lines 147-151
    let st1 := { st with flsamples := st.flsamples + 1 }
    if st1.flsamples < FLATLINE_SAMPLES then
      skip st1 Branch.flatSkip
    else
      plot cfg (resetCursor { st1 with flsamples := 0, rdytrigger := false }) y Branch.flatTrigger
  else if y > st.gs.lasty then
    -- lines 152-159
    let st1 := { st with gs := { st.gs with lasty := y }, flsamples := 0 }
    let st2 :=
      if cfg.triggerMethod = TriggerMethod.positiveRamp then { st1 with rdytrigger := true } else st1
    skip st2 Branch.armSkip
  else
    -- lines 160-166
    let st1 := { st with gs := { st.gs with lasty := y }, flsamples := 0 }
    if st1.rdytrigger = false then
      skip st1 Branch.unarmedSkip
    else
      plot cfg (resetCursor { st1 with rdytrigger := false }) y Branch.edgeTrigger

/-- One iteration of the loop at gwinosc.c:120-187 on the raw sample `s`. -/
def traceStep (cfg : ScopeConfig) (st0 : LoopState) (s : Nat) : LoopState :=
  let y := scaleSample cfg st0.yoffset s
  -- lines 129-133 (TRIGGER_MINVALUE only)
  let st :=
    if cfg.triggerMethod = TriggerMethod.minValue ∧ y > st0.scopemin then
      { st0 with scopemin := y }
    else st0
  if st.x ≥ st.gs.width then
    match cfg.triggerMethod with
    | TriggerMethod.none => plot cfg (resetCursor st) y Branch.wrap
    | _ => triggerStep cfg st y
  else
    plot cfg st y Branch.plotted

/-- Lines 102-118: the state on entry to the loop. -/
def loopInit (cfg : ScopeConfig) (gs : GScopeObject) : LoopState :=
  { gs := gs
    x := gs.nextx
    pc := gs.nextx
    yoffset := yoffsetOf cfg gs.height
    rdytrigger := false
    flsamples := 0
    scopemin := 0
    events := if cfg.needClip then [ScopeEvent.setClip gs.x gs.y gs.width gs.height] else []
    branches := [] }

/-- The loop at lines 120-187 over the block of samples. -/
def traceLoop (cfg : ScopeConfig) (st : LoopState) (samples : List Nat) : LoopState :=
  samples.foldl (traceStep cfg) st

/-- Lines 188-191: the object after the loop. -/
def loopExit (cfg : ScopeConfig) (st : LoopState) : GScopeObject :=
  let gs1 := { st.gs with nextx := st.x }
  if cfg.triggerMethod = TriggerMethod.minValue then { gs1 with scopemin := st.scopemin } else gs1

/-- The result of one call of `gwinWaitForScopeTrace`. -/
structure TraceResult where
  gs : GScopeObject
  events : List ScopeEvent
  branches : List Branch
  deriving DecidableEq, Repr

/-- One call of `gwinWaitForScopeTrace(gh)` once the semaphore has been
signalled, with `samples` the block `gs->myEvent.buffer[0 .. count)`. -/
def gwinWaitForScopeTrace (cfg : ScopeConfig) (gs : GScopeObject) (samples : List Nat) :
    TraceResult :=
  let st := traceLoop cfg (loopInit cfg gs) samples
  { gs := loopExit cfg st, events := st.events, branches := st.branches }

/-- The `gdispDrawPixel` calls of a log. -/
def pixelOps (evs : List ScopeEvent) : List ScopeEvent :=
  evs.filter fun e => match e with
    | ScopeEvent.drawPixel _ _ _ => true
    | _ => false

/-! ## Image widget (`gimage.c`) -/

/-- Configuration and constants that `gimage.c` takes from headers. -/
structure ImageConfig where
  /-- C `GDISP_NEED_CLIP` -/
  needClip : Bool
  /-- C `GWIN_FLG_VISIBLE` -/
  flgVisible : Nat
  /-- C `GDISP_IMAGE_ERR_OK` -/
  errOk : Nat
  /-- the colour `gwinGetDefaultBgColor()` returns -/
  defaultBgColor : Nat
  deriving DecidableEq, Repr

/-- The fields of `gdispImage` that the widget looks at. -/
structure gdispImage where
  /-- C `image.type`; `gwinImageCreate` sets it to 0 for "not open" -/
  type : Nat
  /-- C `image.width` -/
  width : Int
  /-- C `image.height` -/
  height : Int
  deriving DecidableEq, Repr

/-- The fields of `GImageObject` (with its base `GWindowObject`). -/
structure GImageObject where
  /-- C `gh->x` -/
  x : Int
  /-- C `gh->y` -/
  y : Int
  /-- C `gh->width` -/
  width : Int
  /-- C `gh->height` -/
  height : Int
  /-- C `gh->flags` -/
  flags : Nat
  /-- C `widget(gh)->image` -/
  image : gdispImage
  deriving DecidableEq, Repr

/-- The image decoder, an external collaborator: what each call answers and
how it leaves the image.  Pointers (memory, file name, stream) are addresses. -/
structure ImageDecoder where
  /-- C `gdispImageClose` -/
  close : gdispImage → gdispImage
  /-- C `gdispImageSetMemoryReader` -/
  setMemoryReader : gdispImage → Nat → Bool × gdispImage
  /-- C `gdispImageSetFileReader` -/
  setFileReader : gdispImage → Nat → Bool × gdispImage
  /-- C `gdispImageSetBaseFileStreamReader` -/
  setBaseFileStreamReader : gdispImage → Nat → Bool × gdispImage
  /-- C `gdispImageOpen`, returning a `gdispImageError` -/
  imageOpen : gdispImage → Nat × gdispImage

/-- The calls `gimage.c` makes to the decoder and to the display, in program
order.  An argument that is an uninitialised local is `none`. -/
inductive ImageCall where
  /-- C `gdispImageIsOpen` -/
  | isOpen
  /-- C `gdispImageClose` -/
  | close
  /-- C `gdispImageSetMemoryReader` -/
  | setMemoryReader (memory : Nat)
  /-- C `gdispImageSetFileReader` -/
  | setFileReader (filename : Nat)
  /-- C `gdispImageSetBaseFileStreamReader` -/
  | setBaseFileStreamReader (streamPtr : Nat)
  /-- C `gdispImageOpen` -/
  | imageOpen
  /-- C `gdispSetClip` -/
  | setClip (x y w h : Int)
  /-- C `gdispFillArea` -/
  | fillArea (x y w h : Int) (color : Nat)
  /-- C `gdispImageSetBgColor` -/
  | setBgColor (bg : Nat)
  /-- C `gdispImageDraw` -/
  | imageDraw (x y w h : Int) (dx dy : Option Int)
  deriving DecidableEq, Repr

/-- The check `gdispImageIsOpen(&image)`; see gimage.c:95-96. -/
def gdispImageIsOpen (img : gdispImage) : Bool :=
  img.type != 0

/-- The locals `x, y, w, h, dx, dy` of `_redraw`; `dx`, `dy` start
uninitialised. -/
structure RedrawVars where
  x : Int
  y : Int
  w : Int
  h : Int
  dx : Option Int
  dy : Option Int
  deriving DecidableEq, Repr

/-- Lines 43-57 of `_redraw`: the horizontal axis.  Returns the locals and
the fills issued. -/
def redrawHoriz (bg : Nat) (gh : GImageObject) (v : RedrawVars) : RedrawVars × List ImageCall :=
  if gh.image.width < v.w then
    let w := gh.image.width
    let dx := Int.tdiv (gh.width - w) 2
    let x := v.x + dx
    ({ v with x := x, w := w, dx := some 0 },
      (if dx ≠ 0 then [ImageCall.fillArea gh.x v.y dx v.h bg] else []) ++
        [ImageCall.fillArea (x + w) v.y (gh.width - dx - w) v.h bg])
  else if gh.image.width > v.w then
    ({ v with dx := some (Int.tdiv (gh.image.width - v.w) 2) }, [])
  else
    (v, [])

/-- Lines 59-73 of `_redraw`: the vertical axis.  Returns the locals and
the fills issued. -/
def redrawVert (bg : Nat) (gh : GImageObject) (v : RedrawVars) : RedrawVars × List ImageCall :=
  if gh.image.height < v.h then
    let h := gh.image.height
    let dy := Int.tdiv (gh.height - h) 2
    let y := v.y + dy
    ({ v with y := y, h := h, dy := some 0 },
      (if dy ≠ 0 then [ImageCall.fillArea v.x gh.y v.w dy bg] else []) ++
        [ImageCall.fillArea v.x (y + h) v.w (gh.height - dy - h) bg])
  else if gh.image.height > v.h then
    ({ v with dy := some (Int.tdiv (gh.image.height - v.h) 2) }, [])
  else
    (v, [])

/-- The locals of `_redraw` after lines 31-34; `dx`, `dy` are not set. -/
def redrawInit (gh : GImageObject) : RedrawVars :=
  { x := gh.x, y := gh.y, w := gh.width, h := gh.height, dx := none, dy := none }

/-- The calls made by `_redraw(gh)` (gimage.c:26-80). -/
def _redraw (cfg : ImageConfig) (gh : GImageObject) : List ImageCall :=
  let v0 := redrawInit gh
  let bg := cfg.defaultBgColor
  if gdispImageIsOpen gh.image = false then
    [ImageCall.isOpen, ImageCall.fillArea v0.x v0.y v0.w v0.h bg]
  else
    let h1 := redrawHoriz bg gh v0
    let h2 := redrawVert bg gh h1.1
    let v := h2.1
    [ImageCall.isOpen] ++ h1.2 ++ h2.2 ++
      [ImageCall.setBgColor bg, ImageCall.imageDraw v.x v.y v.w v.h v.dx v.dy]

/-- The outcome of one of the `gwinImageOpen...` calls. -/
structure OpenResult where
  /-- the `bool_t` returned -/
  ret : Bool
  /-- the widget afterwards -/
  gh : GImageObject
  /-- the calls made -/
  calls : List ImageCall
  deriving DecidableEq, Repr

/-- Lines 113-121, shared verbatim by the three open functions: redraw when
visible, return TRUE. -/
def showIfVisible (cfg : ImageConfig) (gh : GImageObject) (calls : List ImageCall) : OpenResult :=
  if gh.flags &&& cfg.flgVisible ≠ 0 then
    { ret := true, gh := gh,
      calls := calls ++
        (if cfg.needClip then [ImageCall.setClip gh.x gh.y gh.width gh.height] else []) ++
        _redraw cfg gh }
  else
    { ret := true, gh := gh, calls := calls }

/-- The function `gwinImageOpenMemory(gh, memory)` (gimage.c:103-122). -/
def gwinImageOpenMemory (d : ImageDecoder) (cfg : ImageConfig) (gh0 : GImageObject)
    (memory : Nat) : OpenResult :=
  let c0 := [ImageCall.isOpen]
  let (gh1, c1) :=
    if gdispImageIsOpen gh0.image then
      ({ gh0 with image := d.close gh0.image }, c0 ++ [ImageCall.close])
    else (gh0, c0)
  let r := d.setMemoryReader gh1.image memory
  let gh2 := { gh1 with image := r.2 }
  let c2 := c1 ++ [ImageCall.setMemoryReader memory]
  if r.1 = false then { ret := false, gh := gh2, calls := c2 }
  else
    let o := d.imageOpen gh2.image
    let gh3 := { gh2 with image := o.2 }
    let c3 := c2 ++ [ImageCall.imageOpen]
    if o.1 ≠ cfg.errOk then { ret := false, gh := gh3, calls := c3 }
    else showIfVisible cfg gh3 c3

/-- The function `gwinImageOpenFile(gh, filename)` (gimage.c:125-144). -/
def gwinImageOpenFile (d : ImageDecoder) (cfg : ImageConfig) (gh0 : GImageObject)
    (filename : Nat) : OpenResult :=
  let c0 := [ImageCall.isOpen]
  let (gh1, c1) :=
    if gdispImageIsOpen gh0.image then
      ({ gh0 with image := d.close gh0.image }, c0 ++ [ImageCall.close])
    else (gh0, c0)
  let r := d.setFileReader gh1.image filename
  let gh2 := { gh1 with image := r.2 }
  let c2 := c1 ++ [ImageCall.setFileReader filename]
  if r.1 = false then { ret := false, gh := gh2, calls := c2 }
  else
    let o := d.imageOpen gh2.image
    let gh3 := { gh2 with image := o.2 }
    let c3 := c2 ++ [ImageCall.imageOpen]
    if o.1 ≠ cfg.errOk then { ret := false, gh := gh3, calls := c3 }
    else showIfVisible cfg gh3 c3

/-- The function `gwinImageOpenStream(gh, streamPtr)` (gimage.c:148-167). -/
def gwinImageOpenStream (d : ImageDecoder) (cfg : ImageConfig) (gh0 : GImageObject)
    (streamPtr : Nat) : OpenResult :=
  let c0 := [ImageCall.isOpen]
  let (gh1, c1) :=
    if gdispImageIsOpen gh0.image then
      ({ gh0 with image := d.close gh0.image }, c0 ++ [ImageCall.close])
    else (gh0, c0)
  let r := d.setBaseFileStreamReader gh1.image streamPtr
  let gh2 := { gh1 with image := r.2 }
  let c2 := c1 ++ [ImageCall.setBaseFileStreamReader streamPtr]
  if r.1 = false then { ret := false, gh := gh2, calls := c2 }
  else
    let o := d.imageOpen gh2.image
    let gh3 := { gh2 with image := o.2 }
    let c3 := c2 ++ [ImageCall.imageOpen]
    if o.1 ≠ cfg.errOk then { ret := false, gh := gh3, calls := c3 }
    else showIfVisible cfg gh3 c3

/-! ## Definitions used to state the properties -/

/-- The scaled value as the specification words it: `H/2 + 2^SCOPE_Y_BITS/2`
minus the sample divided by `2^(GAUDIN_BITS_PER_SAMPLE - SCOPE_Y_BITS)` when
the sample has more bits than the scope, and minus the sample times
`2^(SCOPE_Y_BITS - GAUDIN_BITS_PER_SAMPLE)` otherwise. -/
def specScaled (cfg : ScopeConfig) (H : Int) (s : Nat) : Int :=
  if cfg.gaudinBits > cfg.scopeYBits then
    Int.tdiv H 2 + ((2 ^ cfg.scopeYBits / 2 : Nat) : Int)
      - ((s / 2 ^ (cfg.gaudinBits - cfg.scopeYBits) : Nat) : Int)
  else
    Int.tdiv H 2 + ((2 ^ cfg.scopeYBits / 2 : Nat) : Int)
      - ((s * 2 ^ (cfg.scopeYBits - cfg.gaudinBits) : Nat) : Int)

/-- The widths of the `gdispFillArea` calls of a log, in order. -/
def fillWidths : List ImageCall → List Int
  | [] => []
  | ImageCall.fillArea _ _ w _ _ :: l => w :: fillWidths l
  | _ :: l => fillWidths l

/-- The heights of the `gdispFillArea` calls of a log, in order. -/
def fillHeights : List ImageCall → List Int
  | [] => []
  | ImageCall.fillArea _ _ _ h _ :: l => h :: fillHeights l
  | _ :: l => fillHeights l

/-- Calls that paint or clip: `gdispFillArea`, `gdispSetClip`, `gdispImageDraw`. -/
def ImageCall.isDisplayCall : ImageCall → Bool
  | ImageCall.fillArea _ _ _ _ _ => true
  | ImageCall.setClip _ _ _ _ => true
  | ImageCall.imageDraw _ _ _ _ _ _ => true
  | _ => false

/-- Calls that paint: `gdispFillArea`, `gdispImageDraw`. -/
def ImageCall.isPaintCall : ImageCall → Bool
  | ImageCall.fillArea _ _ _ _ _ => true
  | ImageCall.imageDraw _ _ _ _ _ _ => true
  | _ => false

/-- The image the reader is set on: the widget's image, closed first when it
was open on entry. -/
def imageAfterClose (d : ImageDecoder) (gh : GImageObject) : gdispImage :=
  if gdispImageIsOpen gh.image then d.close gh.image else gh.image

/-- The decoder calls every open function starts with: the open-state query
and, when the image was open, one `gdispImageClose`. -/
def closeCalls (gh : GImageObject) : List ImageCall :=
  [ImageCall.isOpen] ++ (if gdispImageIsOpen gh.image then [ImageCall.close] else [])

/-- The call ordering of C6 for one open function: the log is the open-state
query, then `gdispImageClose` exactly when the image was open on entry, then
the reader call, then a remainder (holding any `gdispImageOpen`) in which
`gdispImageClose` does not occur. -/
def ClosesPriorFirst (gh : GImageObject) (readerCall : ImageCall) (r : OpenResult) : Prop :=
  (∃ rest, r.calls = closeCalls gh ++ readerCall :: rest ∧ ImageCall.close ∉ rest) ∧
  r.calls.count ImageCall.close = (if gdispImageIsOpen gh.image then 1 else 0)

/-- The return contract of C8 for one open function, where `rd` is what
setting the reader answered and `op` what `gdispImageOpen` answers after it. -/
def OpenContract (cfg : ImageConfig) (gh : GImageObject) (readerCall : ImageCall)
    (rd : Bool × gdispImage) (op : Nat × gdispImage) (r : OpenResult) : Prop :=
  (r.ret = true ↔ rd.1 = true ∧ op.1 = cfg.errOk) ∧
  (r.ret = false → ∀ c ∈ r.calls, c.isDisplayCall = false) ∧
  (r.ret = true →
    r.calls = closeCalls gh ++ [readerCall, ImageCall.imageOpen] ++
      (if gh.flags &&& cfg.flgVisible ≠ 0 then
        (if cfg.needClip then [ImageCall.setClip gh.x gh.y gh.width gh.height] else []) ++
          _redraw cfg r.gh
       else [])) ∧
  (r.ret = true → ((∃ c ∈ r.calls, c.isPaintCall = true) ↔ gh.flags &&& cfg.flgVisible ≠ 0))

/-- The body the three open functions share, with the reader call left
open; `gwinImageOpenMemory`, `gwinImageOpenFile` and `gwinImageOpenStream`
are instances of it (see `gwinImageOpenMemory_eq` and its siblings). -/
def openWith (d : ImageDecoder) (cfg : ImageConfig) (gh0 : GImageObject)
    (setReader : gdispImage → Bool × gdispImage) (readerCall : ImageCall) : OpenResult :=
  let c0 := [ImageCall.isOpen]
  let (gh1, c1) :=
    if gdispImageIsOpen gh0.image then
      ({ gh0 with image := d.close gh0.image }, c0 ++ [ImageCall.close])
    else (gh0, c0)
  let r := setReader gh1.image
  let gh2 := { gh1 with image := r.2 }
  let c2 := c1 ++ [readerCall]
  if r.1 = false then { ret := false, gh := gh2, calls := c2 }
  else
    let o := d.imageOpen gh2.image
    let gh3 := { gh2 with image := o.2 }
    let c3 := c2 ++ [ImageCall.imageOpen]
    if o.1 ≠ cfg.errOk then { ret := false, gh := gh3, calls := c3 }
    else showIfVisible cfg gh3 c3

/-- A decoder used in examples: closing clears `type`; every reader is
accepted; opening yields a 4 x 30 image. -/
def sampleDecoder : ImageDecoder :=
  { close := fun i => { i with type := 0 }
    setMemoryReader := fun i _ => (true, i)
    setFileReader := fun i _ => (true, i)
    setBaseFileStreamReader := fun i _ => (true, i)
    imageOpen := fun i => (0, { i with type := 1, width := 4, height := 30 }) }

/-- An image configuration used in examples. -/
def sampleImageConfig : ImageConfig :=
  { needClip := true, flgVisible := 1, errOk := 0, defaultBgColor := 7 }

/-- A visible 9 x 8 widget at (10, 20) whose image is open and 4 x 3. -/
def sampleWidget : GImageObject :=
  { x := 10, y := 20, width := 9, height := 8, flags := 1,
    image := { type := 1, width := 4, height := 3 } }

/-- The parts of the loop state that no iteration changes: the window
geometry and colours, `gs->scopemin`, `gs->nextx`, and `yoffset`. -/
def LoopState.frame (st : LoopState) : Int × Int × Int × Int × Nat × Nat × Int × Int × Int :=
  (st.gs.x, st.gs.y, st.gs.width, st.gs.height, st.gs.color, st.gs.bgcolor,
    st.gs.scopemin, st.gs.nextx, st.yoffset)

/-- The loop state with the parts blanked that no later iteration reads:
the two logs, `gs->nextx` and the local `scopemin`. -/
def LoopState.core (st : LoopState) : LoopState :=
  { st with gs := { st.gs with nextx := 0 }, scopemin := 0, events := [], branches := [] }

/-- A positive-ramp configuration used in examples: 8-bit samples on a
7-bit scope, so the shift is one bit. -/
def rampConfig : ScopeConfig :=
  { triggerMethod := TriggerMethod.positiveRamp, gaudinBits := 8, scopeYBits := 7,
    needClip := true }

/-- A minimum-value configuration used in examples. -/
def minConfig : ScopeConfig :=
  { triggerMethod := TriggerMethod.minValue, gaudinBits := 8, scopeYBits := 7,
    needClip := true }

/-- A 3 x 100 scope at (10, 20) whose cursor stands at the trace end. -/
def sampleScope : GScopeObject :=
  { x := 10, y := 20, width := 3, height := 100, color := 1, bgcolor := 0,
    lastscopetrace := [0, 0, 0], nextx := 3, lasty := 50, scopemin := 0 }

/-- Whether the iteration reached lines 177-186 and drew its sample. -/
def Branch.draws : Branch → Bool
  | .plotted => true
  | .flatTrigger => true
  | .edgeTrigger => true
  | .wrap => true
  | _ => false

/-- The column at which an iteration that draws puts its sample: the cursor
`x`, or 0 when the cursor stood at the trace end and was reset. -/
def plotColumn (st : LoopState) : Int :=
  if st.x ≥ st.gs.width then 0 else st.x

/-- The offset of `pc` at which an iteration that draws reads and writes the
trace buffer: `pc`, or 0 when the cursor stood at the trace end and was reset. -/
def plotOffset (st : LoopState) : Int :=
  if st.x ≥ st.gs.width then 0 else st.pc

/-- The two ways an iteration can end, as a relation between the state
before (`st`), the state after (`st1`), the scaled value `y` and the branch
`b`: either nothing is drawn and log, buffer and cursor are as before, or
the sample is drawn at `plotColumn st` through the pointer `plotOffset st`. -/
def StepShape (st st1 : LoopState) (y : Int) (b : Branch) : Prop :=
  st1.branches = st.branches ++ [b] ∧
  ((b.draws = false ∧ st1.events = st.events ∧
      st1.gs.lastscopetrace = st.gs.lastscopetrace ∧ st1.x = st.x ∧ st1.pc = st.pc) ∨
   (b.draws = true ∧
      st1.events = st.events ++
        [ScopeEvent.traceRead (plotOffset st),
          ScopeEvent.drawPixel (st.gs.x + plotColumn st)
            (st.gs.y + readTrace st.gs.lastscopetrace (plotOffset st)) st.gs.bgcolor,
          ScopeEvent.drawPixel (st.gs.x + plotColumn st) (st.gs.y + y) st.gs.color,
          ScopeEvent.traceWrite (plotOffset st) y] ∧
      st1.gs.lastscopetrace = writeTrace st.gs.lastscopetrace (plotOffset st) y ∧
      st1.x = plotColumn st + 1 ∧ st1.pc = plotOffset st + 1))
/-- The loop invariant of `gwinWaitForScopeTrace` on a created scope: the
pointer `pc` is at offset `x`, the cursor is within `0 .. width`, the width
is positive and the trace buffer has `width` entries. -/
def LoopState.WellFormed (st : LoopState) : Prop :=
  st.pc = st.x ∧ 0 ≤ st.x ∧ st.x ≤ st.gs.width ∧ 0 < st.gs.width ∧
    (st.gs.lastscopetrace.length : Int) = st.gs.width

/-- A scope object as `gwinCreateScope` and later calls leave it: positive
width, cursor within `0 .. width`, trace buffer of `width` entries. -/
def GScopeObject.WellFormed (gs : GScopeObject) : Prop :=
  0 < gs.width ∧ 0 ≤ gs.nextx ∧ gs.nextx ≤ gs.width ∧
    (gs.lastscopetrace.length : Int) = gs.width

/-- A trace-buffer access of the log lies inside a buffer of `w` entries;
events that are not buffer accesses pass. -/
def ScopeEvent.accessInBounds (w : Int) : ScopeEvent → Prop
  | ScopeEvent.traceRead i => 0 ≤ i ∧ i < w
  | ScopeEvent.traceWrite i _ => 0 ≤ i ∧ i < w
  | _ => True
/-- A well-formed scope used in examples: `sampleScope` with the cursor at
column 1. -/
def midScope : GScopeObject :=
  { sampleScope with nextx := 1, lastscopetrace := [30, 40, 50] }

/-- The running maximum the loop keeps in its local `scopemin`: it starts at 0
(line 117) and every sample with a greater scaled value replaces it (lines
131-132). -/
def blockExtreme (ys : List Int) : Int :=
  ys.foldl max 0
/-! ### Scope creation (`gwinCreateScope`) -/

/-- The entry count `AUDIOBUFSZ` of the audio buffer; the source writes
`#define AUDIOBUFSZ 64*2` (gwinosc.c:50). -/
def AUDIOBUFSZ : Nat := 64 * 2

/-- What `gwinCreateScope` calls, in program order. -/
inductive CreateCall where
  /-- C `_gwindowCreate(gs, x, y, cx, cy, sizeof(GScopeObject))` -/
  | gwindowCreate (x y cx cy : Int)
  /-- C `gfxSemInit(&gs->bsem, 0, 1)` -/
  | semInit
  /-- C `gfxAlloc(NULL, gs->gwin.width * sizeof(coord_t))`, by entry count -/
  | allocTrace (entries : Int)
  /-- C `gfxAlloc(NULL, AUDIOBUFSZ * sizeof(adcsample_t))`, by entry count -/
  | allocAudio (entries : Nat)
  /-- C `gaudinInit(channel, frequency, gs->audiobuf, AUDIOBUFSZ, AUDIOBUFSZ/2)` -/
  | gaudinInit (channel frequency bufcount samplesPerEvent : Nat)
  /-- C `gaudinSetBSem(&gs->bsem, &gs->myEvent)` -/
  | gaudinSetBSem
  /-- C `gaudinStart()` -/
  | gaudinStart
  deriving DecidableEq, Repr

/-- Calls into the audio-in driver. -/
def CreateCall.isAudioDriver : CreateCall → Bool
  | CreateCall.gaudinInit _ _ _ _ => true
  | CreateCall.gaudinSetBSem => true
  | CreateCall.gaudinStart => true
  | _ => false

/-- What the collaborators of `gwinCreateScope` answer. -/
structure CreateEnv where
  /-- the object `_gwindowCreate` returns with its base window set up, or
  `none` for a null return -/
  window : Option GScopeObject
  /-- the contents of the block the first `gfxAlloc` returns, or `none` for a
  null return -/
  traceBlock : Option (Nat → Int)
  /-- whether the second `gfxAlloc` returns a block -/
  audioBlock : Bool

/-- The outcome of `gwinCreateScope`. -/
structure CreateResult where
  /-- the handle returned, `none` for 0 -/
  handle : Option GScopeObject
  /-- the calls made -/
  calls : List CreateCall

/-- Lines 68-73: the trigger members set for the compiled-in policy. -/
def initTrigger (cfg : ScopeConfig) (gs : GScopeObject) : GScopeObject :=
  match cfg.triggerMethod with
  | TriggerMethod.positiveRamp => { gs with lasty := Int.tdiv gs.height 2 }
  | TriggerMethod.minValue => { gs with lasty := Int.tdiv gs.height 2, scopemin := 0 }
  | TriggerMethod.none => gs

/-- The function `gwinCreateScope(gs, x, y, cx, cy, channel, frequency)`
(gwinosc.c:55-81). -/
def gwinCreateScope (cfg : ScopeConfig) (env : CreateEnv) (x y cx cy : Int)
    (channel frequency : Nat) : CreateResult :=
  let c0 := [CreateCall.gwindowCreate x y cx cy]
  match env.window with
  | none => { handle := none, calls := c0 }
  | some gs0 =>
    let gs1 := { gs0 with nextx := 0 }
    let c1 := c0 ++ [CreateCall.semInit, CreateCall.allocTrace gs1.width]
    match env.traceBlock with
    | none => { handle := none, calls := c1 }
    | some block =>
      let gs2 := { gs1 with lastscopetrace := (List.range gs1.width.toNat).map block }
      let c2 := c1 ++ [CreateCall.allocAudio AUDIOBUFSZ]
      if env.audioBlock = false then { handle := none, calls := c2 }
      else
        { handle := some (initTrigger cfg gs2)
          calls := c2 ++
            [CreateCall.gaudinInit channel frequency AUDIOBUFSZ (AUDIOBUFSZ / 2),
              CreateCall.gaudinSetBSem, CreateCall.gaudinStart] }

/-- An environment in which every step of `gwinCreateScope` succeeds. -/
def goodCreateEnv : CreateEnv :=
  { window := some { sampleScope with lastscopetrace := [], nextx := 7, lasty := 9 }
    traceBlock := some fun _ => 0
    audioBlock := true }

/-- A visible 9 x 8 widget at (10, 20) whose open image has exactly the
widget's size. -/
def sameSizeWidget : GImageObject :=
  { sampleWidget with image := { type := 1, width := 9, height := 8 } }

/-- A visible 9 x 8 widget at (10, 20) whose open image is 20 x 30. -/
def largeImageWidget : GImageObject :=
  { sampleWidget with image := { type := 1, width := 20, height := 30 } }
/-- A rectangle of pixels: origin and size, as the display calls take them. -/
structure Rect where
  x : Int
  y : Int
  w : Int
  h : Int
  deriving DecidableEq, Repr

/-- Whether the pixel `(px, py)` lies in the rectangle; a rectangle of width
or height 0 or less holds no pixel. -/
def Rect.contains (r : Rect) (px py : Int) : Bool :=
  decide (r.x ≤ px ∧ px < r.x + r.w ∧ r.y ≤ py ∧ py < r.y + r.h)

/-- The rectangles a log paints: the area of every `gdispFillArea` and the
destination rectangle of every `gdispImageDraw`. -/
def paintedRects : List ImageCall → List Rect
  | [] => []
  | ImageCall.fillArea x y w h _ :: l => { x := x, y := y, w := w, h := h } :: paintedRects l
  | ImageCall.imageDraw x y w h _ _ :: l => { x := x, y := y, w := w, h := h } :: paintedRects l
  | _ :: l => paintedRects l

/-- How many of the rectangles a log paints hold the pixel `(px, py)`. -/
def paintCount (calls : List ImageCall) (px py : Int) : Nat :=
  (paintedRects calls).countP fun r => r.contains px py

/-! ## Theorems -/

/-! ### Helper lemmas -/

theorem traceStep_yoffset (cfg : ScopeConfig) (st : LoopState) (s : Nat) :
    (traceStep cfg st s).yoffset = st.yoffset := by
  unfold traceStep triggerStep plot skip resetCursor
  cases cfg.triggerMethod <;> simp <;> (repeat' split) <;> rfl

theorem traceLoop_yoffset (cfg : ScopeConfig) (samples : List Nat) (st : LoopState) :
    (traceLoop cfg st samples).yoffset = st.yoffset := by
  induction samples generalizing st with
  | nil => rfl
  | cons s l ih =>
    show (traceLoop cfg (traceStep cfg st s) l).yoffset = st.yoffset
    rw [ih, traceStep_yoffset]

/-! ### Image widget -/

theorem close_not_mem_redrawHoriz (bg : Nat) (gh : GImageObject) (v : RedrawVars) :
    ImageCall.close ∉ (redrawHoriz bg gh v).2 := by
  unfold redrawHoriz
  repeat' split
  all_goals simp

theorem close_not_mem_redrawVert (bg : Nat) (gh : GImageObject) (v : RedrawVars) :
    ImageCall.close ∉ (redrawVert bg gh v).2 := by
  unfold redrawVert
  repeat' split
  all_goals simp

theorem close_not_mem_redraw (cfg : ImageConfig) (gh : GImageObject) :
    ImageCall.close ∉ _redraw cfg gh := by
  unfold _redraw
  split
  · simp
  · simp [close_not_mem_redrawHoriz, close_not_mem_redrawVert]

theorem redraw_paints (cfg : ImageConfig) (gh : GImageObject) :
    ∃ c ∈ _redraw cfg gh, c.isPaintCall = true := by
  unfold _redraw
  split
  · exact ⟨_, List.mem_cons_of_mem _ (List.mem_singleton_self _), rfl⟩
  · exact ⟨_, List.mem_append_right _ (List.mem_cons_of_mem _ (List.mem_singleton_self _)), rfl⟩

/-- C9: when the widget's image is not open, `_redraw` queries the open state
and then issues exactly one display operation, the fill of the whole widget
rectangle `(gh->x, gh->y, gh->width, gh->height)` with the background colour;
there is no image draw and no other fill. -/
theorem redraw_not_open_fills_widget (cfg : ImageConfig) (gh : GImageObject)
    (h : gdispImageIsOpen gh.image = false) :
    _redraw cfg gh =
        [ImageCall.isOpen, ImageCall.fillArea gh.x gh.y gh.width gh.height cfg.defaultBgColor] ∧
      (_redraw cfg gh).filter ImageCall.isDisplayCall =
        [ImageCall.fillArea gh.x gh.y gh.width gh.height cfg.defaultBgColor] := by
  have e : _redraw cfg gh =
      [ImageCall.isOpen, ImageCall.fillArea gh.x gh.y gh.width gh.height cfg.defaultBgColor] := by
    unfold _redraw
    simp [h, redrawInit]
  rw [e]
  exact ⟨rfl, rfl⟩

theorem redraw_not_open_fills_widget_witness :
    gdispImageIsOpen ({ sampleWidget with image := { type := 0, width := 0, height := 0 } }).image = false ∧
    (_redraw sampleImageConfig { sampleWidget with image := { type := 0, width := 0, height := 0 } } =
        [ImageCall.isOpen, ImageCall.fillArea 10 20 9 8 7] ∧
      (_redraw sampleImageConfig
          { sampleWidget with image := { type := 0, width := 0, height := 0 } }).filter
          ImageCall.isDisplayCall = [ImageCall.fillArea 10 20 9 8 7]) :=
  ⟨rfl, redraw_not_open_fills_widget sampleImageConfig
    { sampleWidget with image := { type := 0, width := 0, height := 0 } } rfl⟩

/-- C7: in `_redraw` with an open image, the log is the open-state query, the
fills of the horizontal step, the fills of the vertical step, and the image
draw.  For `0 <= w < W` the horizontal step issues a left fill of width
`(W - w)/2` (omitted when that is 0) and a right fill of width
`W - (W - w)/2 - w`, so the widths sum to `W - w`; for `0 <= h < H` the
vertical step issues a fill above of height `(H - h)/2` (omitted when 0) and
a fill below of height `H - (H - h)/2 - h`, so the heights sum to `H - h`. -/
theorem redraw_fills_sum_to_margin (cfg : ImageConfig) (gh : GImageObject)
    (hopen : gdispImageIsOpen gh.image = true) :
    let bg := cfg.defaultBgColor
    let hz := redrawHoriz bg gh (redrawInit gh)
    let vt := redrawVert bg gh hz.1
    let dx := (gh.width - gh.image.width) / 2
    let dy := (gh.height - gh.image.height) / 2
    _redraw cfg gh = [ImageCall.isOpen] ++ hz.2 ++ vt.2 ++
        [ImageCall.setBgColor bg,
          ImageCall.imageDraw vt.1.x vt.1.y vt.1.w vt.1.h vt.1.dx vt.1.dy] ∧
    (0 ≤ gh.image.width → gh.image.width < gh.width →
      hz.2 = (if dx ≠ 0 then [ImageCall.fillArea gh.x gh.y dx gh.height bg] else []) ++
          [ImageCall.fillArea (gh.x + dx + gh.image.width) gh.y
            (gh.width - dx - gh.image.width) gh.height bg] ∧
      (fillWidths hz.2).sum = gh.width - gh.image.width) ∧
    (0 ≤ gh.image.height → gh.image.height < gh.height →
      vt.2 = (if dy ≠ 0 then [ImageCall.fillArea hz.1.x gh.y hz.1.w dy bg] else []) ++
          [ImageCall.fillArea hz.1.x (gh.y + dy + gh.image.height) hz.1.w
            (gh.height - dy - gh.image.height) bg] ∧
      (fillHeights vt.2).sum = gh.height - gh.image.height) := by
  intro bg hz vt dx dy
  refine ⟨?_, ?_, ?_⟩
  · unfold _redraw
    simp [hopen, hz, vt, bg]
  · intro h0 hlt
    have hd : Int.tdiv (gh.width - gh.image.width) 2 = dx :=
      Int.tdiv_eq_ediv (by omega) (by norm_num)
    have hw : (redrawInit gh).w = gh.width := rfl
    simp only [hz, redrawHoriz, hw, if_pos hlt, hd]
    refine ⟨rfl, ?_⟩
    by_cases hz0 : dx = 0
    · simp [hz0, fillWidths]
    · simp [hz0, fillWidths]
      ring
  · intro h0 hlt
    have hd : Int.tdiv (gh.height - gh.image.height) 2 = dy :=
      Int.tdiv_eq_ediv (by omega) (by norm_num)
    have hh : hz.1.h = gh.height := by
      simp only [hz, redrawHoriz]
      repeat' split
      all_goals rfl
    simp only [vt, redrawVert, hh, if_pos hlt, hd]
    refine ⟨?_, ?_⟩
    · have hy : hz.1.y = gh.y := by
        simp only [hz, redrawHoriz]
        repeat' split
        all_goals rfl
      rw [hy]
    · by_cases hz0 : dy = 0
      · simp [hz0, fillHeights]
      · simp [hz0, fillHeights]
        ring

theorem redraw_fills_sum_to_margin_witness :
    _redraw sampleImageConfig sampleWidget =
      [ImageCall.isOpen, ImageCall.fillArea 10 20 2 8 7, ImageCall.fillArea 16 20 3 8 7,
        ImageCall.fillArea 12 20 4 2 7, ImageCall.fillArea 12 25 4 3 7,
        ImageCall.setBgColor 7, ImageCall.imageDraw 12 22 4 3 (some 0) (some 0)] :=
  (redraw_fills_sum_to_margin sampleImageConfig sampleWidget rfl).1.trans (by decide)

theorem gwinImageOpenMemory_eq (d : ImageDecoder) (cfg : ImageConfig) (gh : GImageObject)
    (memory : Nat) :
    gwinImageOpenMemory d cfg gh memory =
      openWith d cfg gh (fun i => d.setMemoryReader i memory) (ImageCall.setMemoryReader memory) :=
  rfl

theorem gwinImageOpenFile_eq (d : ImageDecoder) (cfg : ImageConfig) (gh : GImageObject)
    (filename : Nat) :
    gwinImageOpenFile d cfg gh filename =
      openWith d cfg gh (fun i => d.setFileReader i filename) (ImageCall.setFileReader filename) :=
  rfl

theorem gwinImageOpenStream_eq (d : ImageDecoder) (cfg : ImageConfig) (gh : GImageObject)
    (streamPtr : Nat) :
    gwinImageOpenStream d cfg gh streamPtr =
      openWith d cfg gh (fun i => d.setBaseFileStreamReader i streamPtr)
        (ImageCall.setBaseFileStreamReader streamPtr) :=
  rfl

theorem count_close_redraw (cfg : ImageConfig) (gh : GImageObject) :
    (_redraw cfg gh).count ImageCall.close = 0 :=
  List.count_eq_zero.mpr (close_not_mem_redraw cfg gh)

theorem openWith_spec (d : ImageDecoder) (cfg : ImageConfig) (gh : GImageObject)
    (setReader : gdispImage → Bool × gdispImage) (readerCall : ImageCall) :
    let rd := setReader (imageAfterClose d gh)
    let op := d.imageOpen rd.2
    let r := openWith d cfg gh setReader readerCall
    (r.ret = true ↔ rd.1 = true ∧ op.1 = cfg.errOk) ∧
    (r.ret = false →
      r.calls = closeCalls gh ++ readerCall :: (if rd.1 = true then [ImageCall.imageOpen] else [])) ∧
    (r.ret = true →
      r.gh = { gh with image := op.2 } ∧
      r.calls = closeCalls gh ++ readerCall :: ImageCall.imageOpen ::
        (if gh.flags &&& cfg.flgVisible ≠ 0 then
          (if cfg.needClip then [ImageCall.setClip gh.x gh.y gh.width gh.height] else []) ++
            _redraw cfg { gh with image := op.2 }
         else [])) := by
  intro rd op r
  have key : ∀ (isOpen : Bool) (rdv : Bool × gdispImage) (opv : Nat × gdispImage)
      (c1 : List ImageCall) (gh1 : GImageObject) (rest : List ImageCall),
      let res : OpenResult :=
        if rdv.1 = false then
          { ret := false, gh := { gh1 with image := rdv.2 }, calls := c1 ++ [readerCall] }
        else if opv.1 ≠ cfg.errOk then
          { ret := false, gh := { { gh1 with image := rdv.2 } with image := opv.2 },
            calls := c1 ++ [readerCall] ++ [ImageCall.imageOpen] }
        else showIfVisible cfg { { gh1 with image := rdv.2 } with image := opv.2 }
          (c1 ++ [readerCall] ++ [ImageCall.imageOpen])
      (res.ret = true ↔ rdv.1 = true ∧ opv.1 = cfg.errOk) ∧
      (res.ret = false →
        res.calls = c1 ++ readerCall :: (if rdv.1 = true then [ImageCall.imageOpen] else [])) ∧
      (res.ret = true →
        res.gh = { gh1 with image := opv.2 } ∧
        res.calls = c1 ++ readerCall :: ImageCall.imageOpen ::
          (if gh1.flags &&& cfg.flgVisible ≠ 0 then
            (if cfg.needClip then [ImageCall.setClip gh1.x gh1.y gh1.width gh1.height] else []) ++
              _redraw cfg { gh1 with image := opv.2 }
           else [])) := by
    intro isOpen rdv opv c1 gh1 rest
    obtain ⟨b, img⟩ := rdv
    by_cases hop : opv.1 = cfg.errOk <;>
    by_cases hv : gh1.flags &&& cfg.flgVisible = 0 <;>
    cases b <;> simp [showIfVisible, hop, hv]
  by_cases ho : gdispImageIsOpen gh.image = true
  · have := key true (setReader (d.close gh.image)) (d.imageOpen (setReader (d.close gh.image)).2)
      [ImageCall.isOpen, ImageCall.close] { gh with image := d.close gh.image } []
    simpa [r, rd, op, openWith, closeCalls, imageAfterClose, ho] using this
  · have := key false (setReader gh.image) (d.imageOpen (setReader gh.image).2)
      [ImageCall.isOpen] gh []
    simpa [r, rd, op, openWith, closeCalls, imageAfterClose, ho] using this

theorem closesPriorFirst_of_calls (gh : GImageObject) (readerCall : ImageCall)
    (r : OpenResult) (rest : List ImageCall) (hrc : readerCall ≠ ImageCall.close)
    (e : r.calls = closeCalls gh ++ readerCall :: rest) (hn : ImageCall.close ∉ rest) :
    ClosesPriorFirst gh readerCall r := by
  have hrc2 : (readerCall == ImageCall.close) = false := by simpa using hrc
  have hcc : (closeCalls gh).count ImageCall.close =
      (if gdispImageIsOpen gh.image then 1 else 0) := by
    unfold closeCalls
    split <;> simp
  refine ⟨⟨rest, e, hn⟩, ?_⟩
  rw [e, List.count_append, hcc, List.count_cons, hrc2, List.count_eq_zero.mpr hn]
  simp

theorem openWith_closesPriorFirst (d : ImageDecoder) (cfg : ImageConfig) (gh : GImageObject)
    (setReader : gdispImage → Bool × gdispImage) (readerCall : ImageCall)
    (hrc : readerCall ≠ ImageCall.close) :
    ClosesPriorFirst gh readerCall (openWith d cfg gh setReader readerCall) := by
  have hnr := close_not_mem_redraw cfg
  obtain ⟨-, hF, hT⟩ := openWith_spec d cfg gh setReader readerCall
  cases hret : (openWith d cfg gh setReader readerCall).ret with
  | false =>
    refine closesPriorFirst_of_calls gh readerCall _ _ hrc (hF hret) ?_
    split <;> simp
  | true =>
    refine closesPriorFirst_of_calls gh readerCall _ _ hrc (hT hret).2 ?_
    split
    · split <;> simp [hnr]
    · simp

/-- C6: for each of `gwinImageOpenMemory`, `gwinImageOpenFile` and
`gwinImageOpenStream`, the log of calls starts with the open-state query,
then `gdispImageClose` exactly when the image was open on entry, then the
reader call; `gdispImageClose` occurs nowhere after the reader call (where
`gdispImageOpen` is attempted), so it is called once if the image was open
and not at all otherwise. -/
theorem open_closes_prior_image_first (d : ImageDecoder) (cfg : ImageConfig)
    (gh : GImageObject) (memory filename streamPtr : Nat) :
    ClosesPriorFirst gh (ImageCall.setMemoryReader memory)
        (gwinImageOpenMemory d cfg gh memory) ∧
      ClosesPriorFirst gh (ImageCall.setFileReader filename)
        (gwinImageOpenFile d cfg gh filename) ∧
      ClosesPriorFirst gh (ImageCall.setBaseFileStreamReader streamPtr)
        (gwinImageOpenStream d cfg gh streamPtr) := by
  rw [gwinImageOpenMemory_eq, gwinImageOpenFile_eq, gwinImageOpenStream_eq]
  exact ⟨openWith_closesPriorFirst _ _ _ _ _ (by simp),
    openWith_closesPriorFirst _ _ _ _ _ (by simp),
    openWith_closesPriorFirst _ _ _ _ _ (by simp)⟩

theorem closeCalls_not_display (gh : GImageObject) :
    ∀ c ∈ closeCalls gh, c.isDisplayCall = false ∧ c.isPaintCall = false := by
  intro c hc
  unfold closeCalls at hc
  split at hc
  · simp at hc
    rcases hc with rfl | rfl <;> exact ⟨rfl, rfl⟩
  · simp at hc
    subst hc
    exact ⟨rfl, rfl⟩

theorem openWith_contract (d : ImageDecoder) (cfg : ImageConfig) (gh : GImageObject)
    (setReader : gdispImage → Bool × gdispImage) (readerCall : ImageCall)
    (hd : readerCall.isDisplayCall = false) (hp : readerCall.isPaintCall = false) :
    OpenContract cfg gh readerCall (setReader (imageAfterClose d gh))
      (d.imageOpen (setReader (imageAfterClose d gh)).2)
      (openWith d cfg gh setReader readerCall) := by
  obtain ⟨hiff, hF, hT⟩ := openWith_spec d cfg gh setReader readerCall
  have hcc := closeCalls_not_display gh
  refine ⟨hiff, ?_, ?_, ?_⟩
  · intro hret c hc
    rw [hF hret] at hc
    rcases List.mem_append.mp hc with h | h
    · exact (hcc c h).1
    · rcases List.mem_cons.mp h with rfl | h
      · exact hd
      · split at h
        · simp at h
          subst h
          rfl
        · simp at h
  · intro hret
    obtain ⟨hgh, hcalls⟩ := hT hret
    rw [hcalls, hgh]
    simp
  · intro hret
    obtain ⟨-, hcalls⟩ := hT hret
    rw [hcalls]
    by_cases hv : gh.flags &&& cfg.flgVisible = 0
    · simp only [hv, ne_eq, not_true_eq_false, if_false, iff_false, not_exists, not_and]
      intro c hc
      rcases List.mem_append.mp hc with h | h
      · simp [(hcc c h).2]
      · simp at h
        rcases h with rfl | rfl
        · simp [hp]
        · simp [ImageCall.isPaintCall]
    · simp only [ne_eq, hv, not_false_eq_true, if_true, iff_true]
      obtain ⟨c, hc, hcp⟩ := redraw_paints cfg
        { gh with image := (d.imageOpen (setReader (imageAfterClose d gh)).2).2 }
      refine ⟨c, ?_, hcp⟩
      apply List.mem_append_right
      apply List.mem_cons_of_mem
      apply List.mem_cons_of_mem
      exact List.mem_append_right _ hc

/-- C8: each of `gwinImageOpenMemory`, `gwinImageOpenFile` and
`gwinImageOpenStream` returns TRUE exactly when setting the reader succeeds
and `gdispImageOpen` then returns `GDISP_IMAGE_ERR_OK`; when it returns FALSE
its log holds no fill, clip or image-draw call; when it returns TRUE the log
is the close step, the reader call, `gdispImageOpen` and then, exactly when
`GWIN_FLG_VISIBLE` is set in `gh->flags`, the clip (if compiled in) and the
calls of `_redraw`, so something is painted if and only if the flag is set. -/
theorem open_returns_true_iff_reader_and_open_ok (d : ImageDecoder) (cfg : ImageConfig)
    (gh : GImageObject) (memory filename streamPtr : Nat) :
    OpenContract cfg gh (ImageCall.setMemoryReader memory)
        (d.setMemoryReader (imageAfterClose d gh) memory)
        (d.imageOpen (d.setMemoryReader (imageAfterClose d gh) memory).2)
        (gwinImageOpenMemory d cfg gh memory) ∧
      OpenContract cfg gh (ImageCall.setFileReader filename)
        (d.setFileReader (imageAfterClose d gh) filename)
        (d.imageOpen (d.setFileReader (imageAfterClose d gh) filename).2)
        (gwinImageOpenFile d cfg gh filename) ∧
      OpenContract cfg gh (ImageCall.setBaseFileStreamReader streamPtr)
        (d.setBaseFileStreamReader (imageAfterClose d gh) streamPtr)
        (d.imageOpen (d.setBaseFileStreamReader (imageAfterClose d gh) streamPtr).2)
        (gwinImageOpenStream d cfg gh streamPtr) := by
  rw [gwinImageOpenMemory_eq, gwinImageOpenFile_eq, gwinImageOpenStream_eq]
  exact ⟨openWith_contract d cfg gh (fun i => d.setMemoryReader i memory) _ rfl rfl,
    openWith_contract d cfg gh (fun i => d.setFileReader i filename) _ rfl rfl,
    openWith_contract d cfg gh (fun i => d.setBaseFileStreamReader i streamPtr) _ rfl rfl⟩

/-! ### Trigger policies: one iteration at the trace end -/

theorem step_ramp_rise (cfg : ScopeConfig) (st : LoopState) (s : Nat) (y : Int)
    (hm : cfg.triggerMethod = TriggerMethod.positiveRamp) (hx : st.x ≥ st.gs.width)
    (hs : scaleSample cfg st.yoffset s = y) (hy : y > st.gs.lasty) :
    traceStep cfg st s =
      skip { st with gs := { st.gs with lasty := y }, flsamples := 0, rdytrigger := true }
        Branch.armSkip := by
  have h1 : ¬ y = st.gs.lasty := by omega
  simp [traceStep, triggerStep, hm, hx, hs, h1, hy]

theorem step_ramp_fall (cfg : ScopeConfig) (st : LoopState) (s : Nat) (y : Int)
    (hm : cfg.triggerMethod = TriggerMethod.positiveRamp) (hx : st.x ≥ st.gs.width)
    (hs : scaleSample cfg st.yoffset s = y) (hy : y < st.gs.lasty) :
    traceStep cfg st s =
      if st.rdytrigger = false then
        skip { st with gs := { st.gs with lasty := y }, flsamples := 0 } Branch.unarmedSkip
      else
        plot cfg
          (resetCursor { st with gs := { st.gs with lasty := y }, flsamples := 0, rdytrigger := false })
          y Branch.edgeTrigger := by
  have h1 : ¬ y = st.gs.lasty := by omega
  have h2 : ¬ y > st.gs.lasty := by omega
  simp [traceStep, triggerStep, hm, hx, hs, h1, h2]

theorem step_ramp_flat_skip (cfg : ScopeConfig) (st : LoopState) (s : Nat)
    (hm : cfg.triggerMethod = TriggerMethod.positiveRamp) (hx : st.x ≥ st.gs.width)
    (hs : scaleSample cfg st.yoffset s = st.gs.lasty)
    (hf : st.flsamples + 1 < FLATLINE_SAMPLES) :
    traceStep cfg st s = skip { st with flsamples := st.flsamples + 1 } Branch.flatSkip := by
  simp [traceStep, triggerStep, hm, hx, hs, hf]

/-- C1 (as the code has it): in the positive-ramp policy, for a sample met with
the cursor at the trace end (`x >= gh->width`) and scaled value `y`:
if `y > gs->lasty` (falling raw amplitude) the iteration arms the trigger and
skips the sample; if `y < gs->lasty` (rising raw amplitude) and the trigger is
armed, it fires: the cursor is reset to column 0, the sample is drawn there and
the trigger is disarmed; if `y < gs->lasty` and the trigger is not armed the
sample is skipped and the trigger stays unarmed; an armed trigger stays armed
over a skipped flat-line sample. -/
theorem positive_ramp_arms_on_y_rise_fires_on_y_fall (cfg : ScopeConfig) (st : LoopState)
    (s : Nat) (hm : cfg.triggerMethod = TriggerMethod.positiveRamp)
    (hx : st.x ≥ st.gs.width) :
    let y := scaleSample cfg st.yoffset s
    let st1 := traceStep cfg st s
    (y > st.gs.lasty →
      st1.rdytrigger = true ∧ st1.branches = st.branches ++ [Branch.armSkip] ∧
      st1.events = st.events ∧ st1.x = st.x ∧ st1.pc = st.pc ∧
      st1.gs.lastscopetrace = st.gs.lastscopetrace) ∧
    (y < st.gs.lasty → st.rdytrigger = true →
      st1.branches = st.branches ++ [Branch.edgeTrigger] ∧
      st1.x = 1 ∧ st1.pc = 1 ∧ st1.rdytrigger = false ∧
      st1.gs.lastscopetrace = writeTrace st.gs.lastscopetrace 0 y ∧
      st1.events = st.events ++
        [ScopeEvent.traceRead 0,
          ScopeEvent.drawPixel (st.gs.x + 0) (st.gs.y + readTrace st.gs.lastscopetrace 0)
            st.gs.bgcolor,
          ScopeEvent.drawPixel (st.gs.x + 0) (st.gs.y + y) st.gs.color,
          ScopeEvent.traceWrite 0 y]) ∧
    (y < st.gs.lasty → st.rdytrigger = false →
      st1.rdytrigger = false ∧ st1.branches = st.branches ++ [Branch.unarmedSkip] ∧
      st1.events = st.events ∧ st1.x = st.x ∧ st1.pc = st.pc ∧
      st1.gs.lastscopetrace = st.gs.lastscopetrace) ∧
    (y = st.gs.lasty → st.flsamples + 1 < FLATLINE_SAMPLES →
      st1.rdytrigger = st.rdytrigger ∧ st1.branches = st.branches ++ [Branch.flatSkip] ∧
      st1.events = st.events ∧ st1.x = st.x ∧ st1.pc = st.pc ∧
      st1.gs.lastscopetrace = st.gs.lastscopetrace) := by
  intro y st1
  refine ⟨?_, ?_, ?_, ?_⟩
  · intro hy
    have e : st1 = _ := step_ramp_rise cfg st s y hm hx rfl hy
    rw [e]
    simp [skip]
  · intro hy hr
    have e : st1 = _ := step_ramp_fall cfg st s y hm hx rfl hy
    rw [e]
    simp [hr, plot, resetCursor, hm]
  · intro hy hr
    have e : st1 = _ := step_ramp_fall cfg st s y hm hx rfl hy
    rw [e]
    simp [hr, skip]
  · intro hy hf
    have e : st1 = _ := step_ramp_flat_skip cfg st s hm hx hy hf
    rw [e]
    simp [skip]

theorem positive_ramp_arms_on_y_rise_fires_on_y_fall_witness :
    (traceStep rampConfig (loopInit rampConfig sampleScope) 60).rdytrigger = true ∧
    (traceStep rampConfig (loopInit rampConfig sampleScope) 60).branches = [Branch.armSkip] :=
  ⟨((positive_ramp_arms_on_y_rise_fires_on_y_fall rampConfig
      (loopInit rampConfig sampleScope) 60 rfl (by decide)).1 (by decide)).1,
   ((positive_ramp_arms_on_y_rise_fires_on_y_fall rampConfig
      (loopInit rampConfig sampleScope) 60 rfl (by decide)).1 (by decide)).2.1⟩

/-- C1 as stated fails: with the cursor at the trace end and the trigger
unarmed, a sample whose scaled value is lower than the previous one (14 < 50)
leaves the trigger unarmed; and with the trigger armed, a sample whose scaled
value is higher than the previous one (84 > 50) does not fire: it is skipped,
nothing is drawn and the cursor stays at the trace end. -/
theorem positive_ramp_claimed_direction_fails :
    (loopInit rampConfig sampleScope).x ≥ (loopInit rampConfig sampleScope).gs.width ∧
    scaleSample rampConfig (loopInit rampConfig sampleScope).yoffset 200
      < (loopInit rampConfig sampleScope).gs.lasty ∧
    (traceStep rampConfig (loopInit rampConfig sampleScope) 200).rdytrigger = false ∧
    scaleSample rampConfig (loopInit rampConfig sampleScope).yoffset 60
      > (loopInit rampConfig sampleScope).gs.lasty ∧
    (traceStep rampConfig { loopInit rampConfig sampleScope with rdytrigger := true } 60).branches
      = [Branch.armSkip] ∧
    (traceStep rampConfig { loopInit rampConfig sampleScope with rdytrigger := true } 60).x = 3 ∧
    (traceStep rampConfig { loopInit rampConfig sampleScope with rdytrigger := true } 60).events
      = (loopInit rampConfig sampleScope).events := by
  decide

/-! ### Facts about every iteration -/

theorem traceStep_frame (cfg : ScopeConfig) (st : LoopState) (s : Nat) :
    (traceStep cfg st s).frame = st.frame := by
  unfold traceStep triggerStep plot skip resetCursor LoopState.frame
  cases cfg.triggerMethod <;> simp <;> (repeat' split) <;> simp

theorem traceLoop_frame (cfg : ScopeConfig) (samples : List Nat) (st : LoopState) :
    (traceLoop cfg st samples).frame = st.frame := by
  induction samples generalizing st with
  | nil => rfl
  | cons s l ih =>
    show (traceLoop cfg (traceStep cfg st s) l).frame = st.frame
    rw [ih, traceStep_frame]

theorem traceLoop_width (cfg : ScopeConfig) (samples : List Nat) (st : LoopState) :
    (traceLoop cfg st samples).gs.width = st.gs.width :=
  congrArg (fun f => f.2.2.1) (traceLoop_frame cfg samples st)

theorem traceLoop_gs_scopemin (cfg : ScopeConfig) (samples : List Nat) (st : LoopState) :
    (traceLoop cfg st samples).gs.scopemin = st.gs.scopemin :=
  congrArg (fun f => f.2.2.2.2.2.2.1) (traceLoop_frame cfg samples st)

theorem traceStep_branches (cfg : ScopeConfig) (st : LoopState) (s : Nat) :
    ∃ b, (traceStep cfg st s).branches = st.branches ++ [b] := by
  unfold traceStep triggerStep plot skip resetCursor
  cases cfg.triggerMethod <;> simp <;> (repeat' split) <;> simp

theorem traceLoop_branches (cfg : ScopeConfig) (samples : List Nat) (st : LoopState) :
    ∃ bs, (traceLoop cfg st samples).branches = st.branches ++ bs ∧
      bs.length = samples.length := by
  induction samples generalizing st with
  | nil => exact ⟨[], by simp [traceLoop], rfl⟩
  | cons s l ih =>
    obtain ⟨b, hb⟩ := traceStep_branches cfg st s
    obtain ⟨bs, hbs, hlen⟩ := ih (traceStep cfg st s)
    refine ⟨b :: bs, ?_, by simp [hlen]⟩
    show (traceLoop cfg (traceStep cfg st s) l).branches = _
    rw [hbs, hb]
    simp

theorem traceLoop_append (cfg : ScopeConfig) (st : LoopState) (l1 l2 : List Nat) :
    traceLoop cfg st (l1 ++ l2) = traceLoop cfg (traceLoop cfg st l1) l2 :=
  List.foldl_append _ _ _ _

theorem getElem?_mid {α : Type} (A B C : List α) (j : Nat) (hj : j < B.length) :
    (A ++ B ++ C)[A.length + j]? = B[j]? := by
  rw [List.append_assoc, List.getElem?_append_right (by omega)]
  simp [List.getElem?_append_left hj]

theorem traceLoop_cons (cfg : ScopeConfig) (st : LoopState) (s : Nat) (l : List Nat) :
    traceLoop cfg st (s :: l) = traceLoop cfg (traceStep cfg st s) l :=
  rfl

theorem traceLoop_snoc (cfg : ScopeConfig) (st : LoopState) (l : List Nat) (s : Nat) :
    traceLoop cfg st (l ++ [s]) = traceStep cfg (traceLoop cfg st l) s := by
  rw [traceLoop_append]
  rfl

theorem branch_at (cfg : ScopeConfig) (gs : GScopeObject) (samples : List Nat) (i s : Nat)
    (hs : samples[i]? = some s) :
    ∃ b, (traceStep cfg (traceLoop cfg (loopInit cfg gs) (samples.take i)) s).branches =
        (traceLoop cfg (loopInit cfg gs) (samples.take i)).branches ++ [b] ∧
      (gwinWaitForScopeTrace cfg gs samples).branches[i]? = some b := by
  obtain ⟨hi, rfl⟩ := List.getElem?_eq_some.mp hs
  obtain ⟨b, hb⟩ := traceStep_branches cfg (traceLoop cfg (loopInit cfg gs) (samples.take i))
    samples[i]
  refine ⟨b, hb, ?_⟩
  obtain ⟨bsPre, hpre, hpreLen⟩ := traceLoop_branches cfg (samples.take i) (loopInit cfg gs)
  obtain ⟨bs2, hbs2, -⟩ := traceLoop_branches cfg (samples.drop (i + 1))
    (traceStep cfg (traceLoop cfg (loopInit cfg gs) (samples.take i)) samples[i])
  have e : traceLoop cfg (loopInit cfg gs) samples =
      traceLoop cfg (traceStep cfg (traceLoop cfg (loopInit cfg gs) (samples.take i)) samples[i])
        (samples.drop (i + 1)) := by
    conv_lhs => rw [← List.take_append_drop i samples, List.drop_eq_getElem_cons hi]
    rw [traceLoop_append, traceLoop_cons]
  have hlen : bsPre.length = i := by
    rw [hpreLen, List.length_take]
    omega
  show (traceLoop cfg (loopInit cfg gs) samples).branches[i]? = some b
  rw [e, hbs2, hb, hpre]
  simp only [loopInit, List.nil_append]
  have := getElem?_mid bsPre [b] bs2 0 (by simp)
  simpa [hlen] using this

theorem step_min_armed_origin (cfg : ScopeConfig) (st : LoopState) (s : Nat)
    (hm : cfg.triggerMethod = TriggerMethod.minValue)
    (h : (traceStep cfg st s).rdytrigger = true ∨
      (traceStep cfg st s).branches = st.branches ++ [Branch.edgeTrigger]) :
    st.rdytrigger = true ∨
      (st.x ≥ st.gs.width ∧ scaleSample cfg st.yoffset s ≥ st.gs.scopemin) := by
  revert h
  unfold traceStep triggerStep plot skip resetCursor
  simp only [hm]
  cases hr : st.rdytrigger
  · by_cases hx : st.x ≥ st.gs.width
    · by_cases hy : scaleSample cfg st.yoffset s ≥ st.gs.scopemin
      · intro _
        exact Or.inr ⟨hx, hy⟩
      · simp only [true_and]
        repeat' split
        all_goals simp_all
    · simp only [true_and]
      repeat' split
      all_goals simp_all
  · intro _
    exact Or.inl rfl

theorem min_armed_has_origin (cfg : ScopeConfig) (gs : GScopeObject)
    (hm : cfg.triggerMethod = TriggerMethod.minValue) (l : List Nat)
    (h : (traceLoop cfg (loopInit cfg gs) l).rdytrigger = true) :
    ∃ j s, j < l.length ∧ l[j]? = some s ∧
      (traceLoop cfg (loopInit cfg gs) (l.take j)).x ≥ gs.width ∧
      scaleSample cfg (yoffsetOf cfg gs.height) s ≥ gs.scopemin := by
  induction l using List.reverseRecOn with
  | nil => simp [traceLoop, loopInit] at h
  | append_singleton l a ih =>
    rw [traceLoop_snoc] at h
    rcases step_min_armed_origin cfg _ a hm (Or.inl h) with h1 | ⟨hx, hy⟩
    · obtain ⟨j, s, hj, hs, hx, hy⟩ := ih h1
      refine ⟨j, s, by simp; omega, ?_, ?_, hy⟩
      · rw [List.getElem?_append_left hj]
        exact hs
      · rw [List.take_append_of_le_length (by omega)]
        exact hx
    · rw [traceLoop_width, traceLoop_gs_scopemin, traceLoop_yoffset] at *
      refine ⟨l.length, a, by simp, by simp, ?_, hy⟩
      simpa using hx

/-- C4: in the minimum-value policy, if sample number `i` of a call takes the
edge-trigger branch, then some sample `j <= i` of that call was met with the
cursor at the trace end and had a scaled value `y >= gs->scopemin`, the value
stored by the previous call.  And a rise alone does not arm: a sample met at
the trace end with the trigger unarmed, `y > gs->lasty` and
`y < gs->scopemin` is skipped and leaves the trigger unarmed. -/
theorem minvalue_edge_trigger_needs_extreme (cfg : ScopeConfig) (gs : GScopeObject)
    (samples : List Nat) (i : Nat) (hm : cfg.triggerMethod = TriggerMethod.minValue) :
    ((gwinWaitForScopeTrace cfg gs samples).branches[i]? = some Branch.edgeTrigger →
      ∃ j s, j ≤ i ∧ samples[j]? = some s ∧
        (traceLoop cfg (loopInit cfg gs) (samples.take j)).x ≥ gs.width ∧
        scaleSample cfg (yoffsetOf cfg gs.height) s ≥ gs.scopemin) ∧
    (∀ (st : LoopState) (s : Nat), st.x ≥ st.gs.width → st.rdytrigger = false →
      scaleSample cfg st.yoffset s > st.gs.lasty →
      scaleSample cfg st.yoffset s < st.gs.scopemin →
      (traceStep cfg st s).rdytrigger = false ∧
      (traceStep cfg st s).branches = st.branches ++ [Branch.armSkip]) := by
  constructor
  · intro h
    obtain ⟨bs, hbs, hlen⟩ := traceLoop_branches cfg samples (loopInit cfg gs)
    have hi : i < samples.length := by
      have h1 : i < (gwinWaitForScopeTrace cfg gs samples).branches.length :=
        (List.getElem?_eq_some.mp h).1
      have h2 : (gwinWaitForScopeTrace cfg gs samples).branches = bs := by
        simpa [loopInit] using hbs
      rw [h2, hlen] at h1
      exact h1
    obtain ⟨b, hb, hbi⟩ := branch_at cfg gs samples i samples[i] (List.getElem?_eq_getElem hi)
    rw [h] at hbi
    have hbe : b = Branch.edgeTrigger := (Option.some.inj hbi).symm
    rw [hbe] at hb
    rcases step_min_armed_origin cfg _ samples[i] hm (Or.inr hb) with h1 | ⟨hx, hy⟩
    · obtain ⟨j, s, hj, hs, hx, hy⟩ := min_armed_has_origin cfg gs hm _ h1
      have hji : j < i := by
        rw [List.length_take] at hj
        omega
      refine ⟨j, s, by omega, ?_, ?_, hy⟩
      · rw [List.getElem?_take] at hs
        simpa [hji] using hs
      · rw [List.take_take, min_eq_left (by omega)] at hx
        exact hx
    · rw [traceLoop_width, traceLoop_gs_scopemin, traceLoop_yoffset] at *
      exact ⟨i, samples[i], le_refl _, List.getElem?_eq_getElem hi, hx, hy⟩
  · intro st s hx hr hy1 hy2
    have h1 : ¬ scaleSample cfg st.yoffset s = st.gs.lasty := by omega
    have h2 : ¬ scaleSample cfg st.yoffset s ≥ st.gs.scopemin := by omega
    unfold traceStep triggerStep skip
    simp only [hm]
    split <;> simp [hx, hr, h1, h2, hy1]

theorem minvalue_edge_trigger_needs_extreme_witness :
    ∃ j s, j ≤ 1 ∧ [60, 100][j]? = some s ∧
      (traceLoop minConfig (loopInit minConfig sampleScope) ([60, 100].take j)).x
        ≥ sampleScope.width ∧
      scaleSample minConfig (yoffsetOf minConfig sampleScope.height) s ≥ sampleScope.scopemin :=
  (minvalue_edge_trigger_needs_extreme minConfig sampleScope [60, 100] 1 rfl).1 (by decide)

/-! ### Positive-ramp policy over a valley -/

theorem triggerStep_core (cfg : ScopeConfig) (st : LoopState) (y : Int) :
    (triggerStep cfg st y).core = (triggerStep cfg st.core y).core ∧
    (triggerStep cfg st y).events = st.events ++ (triggerStep cfg st.core y).events := by
  obtain ⟨⟨gx, gy, gw, gh, gc, gb, buf, nx, ly, gsm⟩, x, pc, yo, rdy, fl, sm, ev, br⟩ := st
  cases hm : cfg.triggerMethod <;> cases rdy <;>
    by_cases c3 : fl + 1 < FLATLINE_SAMPLES <;> by_cases c1 : gsm ≤ y <;>
    rcases lt_trichotomy y ly with c | c | c <;>
    first
    | (have c2 : y = ly := c
       subst c2
       simp [triggerStep, plot, skip, resetCursor, LoopState.core, hm, c1, c3])
    | (have c4 : y > ly := c
       have c2 : ¬ y = ly := ne_of_gt c4
       simp [triggerStep, plot, skip, resetCursor, LoopState.core, hm, c1, c2, c3, c4])
    | (have c5 : y < ly := c
       have c2 : ¬ y = ly := ne_of_lt c5
       have c4 : ¬ y > ly := not_lt_of_gt c5
       have c6 : ¬ ly < y := c4
       simp [triggerStep, plot, skip, resetCursor, LoopState.core, hm, c1, c2, c3, c6])

theorem plot_core (cfg : ScopeConfig) (st : LoopState) (y : Int) (b : Branch) :
    (plot cfg st y b).core = (plot cfg st.core y b).core ∧
    (plot cfg st y b).events = st.events ++ (plot cfg st.core y b).events := by
  obtain ⟨⟨gx, gy, gw, gh, gc, gb, buf, nx, ly, gsm⟩, x, pc, yo, rdy, fl, sm, ev, br⟩ := st
  cases hm : cfg.triggerMethod <;> simp [plot, LoopState.core, hm]

theorem plot_sim (cfg : ScopeConfig) (A B : LoopState) (y : Int) (b : Branch)
    (h : A.core = B.core) (hB : B.events = []) :
    (plot cfg A y b).core = (plot cfg B y b).core ∧
    (plot cfg A y b).events = A.events ++ (plot cfg B y b).events := by
  obtain ⟨a1, a2⟩ := plot_core cfg A y b
  obtain ⟨b1, b2⟩ := plot_core cfg B y b
  rw [hB, List.nil_append] at b2
  rw [a1, a2, b1, b2, h]
  exact ⟨rfl, rfl⟩

theorem triggerStep_sim (cfg : ScopeConfig) (A B : LoopState) (y : Int)
    (h : A.core = B.core) (hB : B.events = []) :
    (triggerStep cfg A y).core = (triggerStep cfg B y).core ∧
    (triggerStep cfg A y).events = A.events ++ (triggerStep cfg B y).events := by
  obtain ⟨a1, a2⟩ := triggerStep_core cfg A y
  obtain ⟨b1, b2⟩ := triggerStep_core cfg B y
  rw [hB, List.nil_append] at b2
  rw [a1, a2, b1, b2, h]
  exact ⟨rfl, rfl⟩

theorem scopemin_update_core (c : Prop) [Decidable c] (t : LoopState) (v : Int) :
    (if c then { t with scopemin := v } else t).core = t.core ∧
    (if c then { t with scopemin := v } else t).events = t.events := by
  split <;> exact ⟨rfl, rfl⟩

theorem core_x_width {A B : LoopState} (h : A.core = B.core) :
    A.x = B.x ∧ A.gs.width = B.gs.width := by
  show A.core.x = B.core.x ∧ A.core.gs.width = B.core.gs.width
  rw [h]
  exact ⟨rfl, rfl⟩

theorem traceStep_core (cfg : ScopeConfig) (st : LoopState) (s : Nat) :
    (traceStep cfg st s).core = (traceStep cfg st.core s).core ∧
    (traceStep cfg st s).events = st.events ++ (traceStep cfg st.core s).events := by
  have hyo : scaleSample cfg st.core.yoffset s = scaleSample cfg st.yoffset s := rfl
  simp only [traceStep, hyo]
  generalize scaleSample cfg st.yoffset s = y
  obtain ⟨hA1, hA2⟩ := scopemin_update_core
    (cfg.triggerMethod = TriggerMethod.minValue ∧ y > st.scopemin) st y
  obtain ⟨hB1, hB2⟩ := scopemin_update_core
    (cfg.triggerMethod = TriggerMethod.minValue ∧ y > st.core.scopemin) st.core y
  generalize (if cfg.triggerMethod = TriggerMethod.minValue ∧ y > st.scopemin then
    ({ st with scopemin := y } : LoopState) else st) = A at hA1 hA2 ⊢
  generalize (if cfg.triggerMethod = TriggerMethod.minValue ∧ y > st.core.scopemin then
    ({ st.core with scopemin := y } : LoopState) else st.core) = B at hB1 hB2 ⊢
  have hcc : st.core.core = st.core := rfl
  have hAB : A.core = B.core := by rw [hA1, hB1, hcc]
  have hBe : B.events = [] := by rw [hB2]; rfl
  obtain ⟨hx, hw⟩ := core_x_width hAB
  rw [← hA2, hx, hw]
  have hr : (resetCursor A).core = (resetCursor B).core := by
    have e : ∀ t : LoopState, (resetCursor t).core = resetCursor t.core := fun _ => rfl
    rw [e, e, hAB]
  split
  · cases cfg.triggerMethod with
    | none =>
      have := plot_sim cfg (resetCursor A) (resetCursor B) y Branch.wrap hr hBe
      exact this
    | positiveRamp => exact triggerStep_sim cfg A B y hAB hBe
    | minValue => exact triggerStep_sim cfg A B y hAB hBe
  · exact plot_sim cfg A B y Branch.plotted hAB hBe

theorem traceLoop_core (cfg : ScopeConfig) (l : List Nat) (st : LoopState) :
    (traceLoop cfg st l).core = (traceLoop cfg st.core l).core ∧
    (traceLoop cfg st l).events = st.events ++ (traceLoop cfg st.core l).events := by
  induction l generalizing st with
  | nil => exact ⟨rfl, by simp [traceLoop, LoopState.core]⟩
  | cons s l ih =>
    obtain ⟨s1, s2⟩ := traceStep_core cfg st s
    obtain ⟨i1, i2⟩ := ih (traceStep cfg st s)
    obtain ⟨j1, j2⟩ := ih (traceStep cfg st.core s)
    rw [traceLoop_cons, traceLoop_cons, i1, i2, j1, j2, s1, s2]
    simp

theorem traceLoop_sim (cfg : ScopeConfig) (l : List Nat) (A B : LoopState)
    (h : A.core = B.core) :
    (traceLoop cfg A l).core = (traceLoop cfg B l).core ∧
    ∃ evs, (traceLoop cfg A l).events = A.events ++ evs ∧
      (traceLoop cfg B l).events = B.events ++ evs := by
  obtain ⟨a1, a2⟩ := traceLoop_core cfg l A
  obtain ⟨b1, b2⟩ := traceLoop_core cfg l B
  refine ⟨by rw [a1, b1, h], (traceLoop cfg B.core l).events, ?_, b2⟩
  rw [a2, h]

theorem traceStep_pc (cfg : ScopeConfig) (st : LoopState) (s : Nat) (h : st.pc = st.x) :
    (traceStep cfg st s).pc = (traceStep cfg st s).x := by
  unfold traceStep triggerStep plot skip resetCursor
  cases cfg.triggerMethod <;> simp <;> (repeat' split) <;> simp_all

theorem traceLoop_pc (cfg : ScopeConfig) (l : List Nat) (st : LoopState) (h : st.pc = st.x) :
    (traceLoop cfg st l).pc = (traceLoop cfg st l).x := by
  induction l generalizing st with
  | nil => exact h
  | cons s l ih => exact ih _ (traceStep_pc cfg st s h)

theorem pixelOps_append (a b : List ScopeEvent) :
    pixelOps (a ++ b) = pixelOps a ++ pixelOps b := by
  simp [pixelOps]

theorem pixelOps_loopInit (cfg : ScopeConfig) (gs : GScopeObject) :
    pixelOps (loopInit cfg gs).events = [] := by
  unfold loopInit pixelOps
  cases cfg.needClip <;> simp

/-- C10 (as the code has it): the armed flag and the flat-line count are
locals that every call of `gwinWaitForScopeTrace` sets to FALSE and 0 on
entry.  Processing `a ++ b` in two consecutive calls gives the same pixel
operations and the same final `nextx`, `lasty` and trace buffer as one call
whenever, after `a` in the single call, the trigger is not armed and the
flat-line count is 0 (and, in the minimum-value policy, the running extreme
equals the stored `gs->scopemin`). -/
theorem split_call_agrees_when_trigger_state_reset (cfg : ScopeConfig) (gs : GScopeObject)
    (a b : List Nat)
    (h1 : (traceLoop cfg (loopInit cfg gs) a).rdytrigger = false)
    (h2 : (traceLoop cfg (loopInit cfg gs) a).flsamples = 0)
    (h3 : cfg.triggerMethod = TriggerMethod.minValue →
      (traceLoop cfg (loopInit cfg gs) a).scopemin = gs.scopemin) :
    pixelOps ((gwinWaitForScopeTrace cfg gs a).events ++
        (gwinWaitForScopeTrace cfg (gwinWaitForScopeTrace cfg gs a).gs b).events)
      = pixelOps (gwinWaitForScopeTrace cfg gs (a ++ b)).events ∧
    (gwinWaitForScopeTrace cfg (gwinWaitForScopeTrace cfg gs a).gs b).gs.nextx
      = (gwinWaitForScopeTrace cfg gs (a ++ b)).gs.nextx ∧
    (gwinWaitForScopeTrace cfg (gwinWaitForScopeTrace cfg gs a).gs b).gs.lasty
      = (gwinWaitForScopeTrace cfg gs (a ++ b)).gs.lasty ∧
    (gwinWaitForScopeTrace cfg (gwinWaitForScopeTrace cfg gs a).gs b).gs.lastscopetrace
      = (gwinWaitForScopeTrace cfg gs (a ++ b)).gs.lastscopetrace := by
  have hpc := traceLoop_pc cfg a (loopInit cfg gs) rfl
  have hfr := traceLoop_frame cfg a (loopInit cfg gs)
  have hsm : (traceLoop cfg (loopInit cfg gs) a).gs.scopemin = gs.scopemin :=
    traceLoop_gs_scopemin cfg a (loopInit cfg gs)
  have hht : (traceLoop cfg (loopInit cfg gs) a).gs.height = gs.height :=
    congrArg (fun f => f.2.2.2.1) hfr
  have hyo : (traceLoop cfg (loopInit cfg gs) a).yoffset = yoffsetOf cfg gs.height :=
    traceLoop_yoffset cfg a (loopInit cfg gs)
  generalize hA : traceLoop cfg (loopInit cfg gs) a = stA at *
  have hcore : (loopInit cfg (loopExit cfg stA)).core = stA.core := by
    obtain ⟨⟨gx, gy, gw, gh, gc, gb, buf, nx, ly, gsm⟩, x, pc, yo, rdy, fl, sm, ev, br⟩ := stA
    simp only at h1 h2 h3 hpc hsm hht hyo
    subst h1 h2 hpc hht hyo
    cases hm : cfg.triggerMethod with
    | none => simp [loopInit, loopExit, LoopState.core, hm]
    | positiveRamp => simp [loopInit, loopExit, LoopState.core, hm]
    | minValue =>
      have := h3 hm
      simp [loopInit, loopExit, LoopState.core, hm, this, hsm]
  obtain ⟨hc, evs, he1, he2⟩ := traceLoop_sim cfg b _ _ hcore
  have hexit : ∀ t : LoopState, (loopExit cfg t).nextx = t.x ∧
      (loopExit cfg t).lasty = t.gs.lasty ∧
      (loopExit cfg t).lastscopetrace = t.gs.lastscopetrace := by
    intro t
    unfold loopExit
    split <;> exact ⟨rfl, rfl, rfl⟩
  have hfin : (gwinWaitForScopeTrace cfg gs (a ++ b)) =
      { gs := loopExit cfg (traceLoop cfg stA b), events := (traceLoop cfg stA b).events,
        branches := (traceLoop cfg stA b).branches } := by
    show TraceResult.mk _ _ _ = _
    rw [traceLoop_append, hA]
  have hfst : (gwinWaitForScopeTrace cfg gs a) =
      { gs := loopExit cfg stA, events := stA.events, branches := stA.branches } := by
    show TraceResult.mk _ _ _ = _
    rw [hA]
  rw [hfin, hfst]
  show pixelOps (stA.events ++ (traceLoop cfg (loopInit cfg (loopExit cfg stA)) b).events)
      = pixelOps (traceLoop cfg stA b).events ∧
    (loopExit cfg (traceLoop cfg (loopInit cfg (loopExit cfg stA)) b)).nextx
      = (loopExit cfg (traceLoop cfg stA b)).nextx ∧
    (loopExit cfg (traceLoop cfg (loopInit cfg (loopExit cfg stA)) b)).lasty
      = (loopExit cfg (traceLoop cfg stA b)).lasty ∧
    (loopExit cfg (traceLoop cfg (loopInit cfg (loopExit cfg stA)) b)).lastscopetrace
      = (loopExit cfg (traceLoop cfg stA b)).lastscopetrace
  rw [(hexit _).1, (hexit _).2.1, (hexit _).2.2, (hexit _).1, (hexit _).2.1, (hexit _).2.2]
  refine ⟨?_, ?_, ?_, ?_⟩
  · rw [he1, he2, pixelOps_append, pixelOps_append, pixelOps_append, pixelOps_loopInit]
    simp
  · have h := congrArg (fun t : LoopState => t.x) hc
    exact h
  · have h := congrArg (fun t : LoopState => t.gs.lasty) hc
    exact h
  · have h := congrArg (fun t : LoopState => t.gs.lastscopetrace) hc
    exact h

theorem split_call_agrees_when_trigger_state_reset_witness :
    pixelOps ((gwinWaitForScopeTrace rampConfig { sampleScope with nextx := 0 } [100, 80]).events ++
        (gwinWaitForScopeTrace rampConfig
          (gwinWaitForScopeTrace rampConfig { sampleScope with nextx := 0 } [100, 80]).gs
          [60, 80]).events)
      = pixelOps (gwinWaitForScopeTrace rampConfig { sampleScope with nextx := 0 }
          ([100, 80] ++ [60, 80])).events :=
  (split_call_agrees_when_trigger_state_reset rampConfig { sampleScope with nextx := 0 }
    [100, 80] [60, 80] (by decide) (by decide) (by decide)).1

/-- C10 as stated fails: the armed flag and the flat-line count are not kept
between calls.  With the cursor at the trace end and `gs->lasty = 64`, eight
samples of scaled value 64 in one call force a flat-line trigger (the eighth
is drawn at column 0, `nextx` ends at 1), but the same samples in two calls
of four draw nothing and leave `nextx` at 3.  Likewise with `gs->lasty = 50`
the samples 60, 100 (scaled 84, 64) trigger in one call and not when each is
given to a call of its own. -/
theorem split_call_differs_from_single_call :
    pixelOps ((gwinWaitForScopeTrace rampConfig { sampleScope with lasty := 64 }
          (List.replicate 4 100)).events ++
        (gwinWaitForScopeTrace rampConfig
          (gwinWaitForScopeTrace rampConfig { sampleScope with lasty := 64 }
            (List.replicate 4 100)).gs (List.replicate 4 100)).events) = [] ∧
    pixelOps (gwinWaitForScopeTrace rampConfig { sampleScope with lasty := 64 }
        (List.replicate 4 100 ++ List.replicate 4 100)).events
      = [ScopeEvent.drawPixel 10 20 0, ScopeEvent.drawPixel 10 84 1] ∧
    (gwinWaitForScopeTrace rampConfig
        (gwinWaitForScopeTrace rampConfig { sampleScope with lasty := 64 }
          (List.replicate 4 100)).gs (List.replicate 4 100)).gs.nextx = 3 ∧
    (gwinWaitForScopeTrace rampConfig { sampleScope with lasty := 64 }
        (List.replicate 4 100 ++ List.replicate 4 100)).gs.nextx = 1 ∧
    (gwinWaitForScopeTrace rampConfig
        (gwinWaitForScopeTrace rampConfig sampleScope [60]).gs [100]).gs.nextx = 3 ∧
    (gwinWaitForScopeTrace rampConfig sampleScope ([60] ++ [100])).gs.nextx = 1 := by
  decide

/-! ### The shape of one iteration -/

theorem triggerStep_shape (cfg : ScopeConfig) (st : LoopState) (y : Int)
    (hx : st.x ≥ st.gs.width) :
    ∃ b, StepShape st (triggerStep cfg st y) y b ∧
      (cfg.triggerMethod ≠ TriggerMethod.none → b ≠ Branch.wrap ∧ b ≠ Branch.plotted) := by
  obtain ⟨⟨gx, gy, gw, gh, gc, gb, buf, nx, ly, gsm⟩, x, pc, yo, rdy, fl, sm, ev, br⟩ := st
  simp only at hx
  cases hm : cfg.triggerMethod <;> cases rdy <;>
    by_cases c3 : fl + 1 < FLATLINE_SAMPLES <;> by_cases c1 : gsm ≤ y <;>
    rcases lt_trichotomy y ly with c | c | c <;>
    first
    | (have c2 : y = ly := c
       subst c2
       simp [StepShape, triggerStep, plot, skip, resetCursor, plotColumn, plotOffset,
         hm, c1, c3, hx, and_assoc, Branch.draws])
    | (have c4 : y > ly := c
       have c2 : ¬ y = ly := ne_of_gt c4
       simp [StepShape, triggerStep, plot, skip, resetCursor, plotColumn, plotOffset,
         hm, c1, c2, c3, c4, hx, and_assoc, Branch.draws])
    | (have c5 : y < ly := c
       have c2 : ¬ y = ly := ne_of_lt c5
       have c6 : ¬ ly < y := not_lt_of_gt c5
       simp [StepShape, triggerStep, plot, skip, resetCursor, plotColumn, plotOffset,
         hm, c1, c2, c3, c6, hx, and_assoc, Branch.draws])

theorem traceStep_shape (cfg : ScopeConfig) (st : LoopState) (s : Nat) :
    ∃ b, StepShape st (traceStep cfg st s) (scaleSample cfg st.yoffset s) b ∧
      (st.x < st.gs.width → b = Branch.plotted) ∧
      (st.x ≥ st.gs.width → cfg.triggerMethod ≠ TriggerMethod.none →
        b ≠ Branch.wrap ∧ b ≠ Branch.plotted) := by
  obtain ⟨gs, x, pc, yo, rdy, fl, sm, ev, br⟩ := st
  simp only
  generalize hy : scaleSample cfg yo s = y
  by_cases hx : x ≥ gs.width
  · have hx2 : ¬ x < gs.width := not_lt.mpr hx
    cases hm : cfg.triggerMethod with
    | none =>
      simp [traceStep, hm, hx, hx2, hy, StepShape, plot, resetCursor, plotColumn, plotOffset,
        Branch.draws, and_assoc]
    | positiveRamp =>
      obtain ⟨b, hb, hb2⟩ := triggerStep_shape cfg ⟨gs, x, pc, yo, rdy, fl, sm, ev, br⟩ y hx
      refine ⟨b, ?_, fun h => absurd h hx2, fun _ _ => hb2 (by simp [hm])⟩
      simpa [traceStep, hm, hx, hy] using hb
    | minValue =>
      by_cases hsm : y > sm
      · obtain ⟨b, hb, hb2⟩ := triggerStep_shape cfg ⟨gs, x, pc, yo, rdy, fl, y, ev, br⟩ y hx
        refine ⟨b, ?_, fun h => absurd h hx2, fun _ _ => hb2 (by simp [hm])⟩
        simpa [traceStep, hm, hx, hy, hsm, StepShape, plotColumn, plotOffset] using hb
      · obtain ⟨b, hb, hb2⟩ := triggerStep_shape cfg ⟨gs, x, pc, yo, rdy, fl, sm, ev, br⟩ y hx
        refine ⟨b, ?_, fun h => absurd h hx2, fun _ _ => hb2 (by simp [hm])⟩
        simpa [traceStep, hm, hx, hy, hsm, StepShape, plotColumn, plotOffset] using hb
  · have hx2 : x < gs.width := not_le.mp hx
    refine ⟨Branch.plotted, ?_, fun _ => rfl, fun h => absurd h hx⟩
    cases hm : cfg.triggerMethod with
    | none =>
      simp [traceStep, hm, hx, hx2, hy, StepShape, plot, plotColumn, plotOffset, Branch.draws]
    | positiveRamp =>
      simp [traceStep, hm, hx, hx2, hy, StepShape, plot, plotColumn, plotOffset, Branch.draws]
    | minValue =>
      by_cases hsm : y > sm <;>
        simp [traceStep, hm, hx, hx2, hy, hsm, StepShape, plot, plotColumn, plotOffset,
          Branch.draws]

theorem traceStep_width (cfg : ScopeConfig) (st : LoopState) (s : Nat) :
    (traceStep cfg st s).gs.width = st.gs.width :=
  traceLoop_width cfg [s] st

theorem writeTrace_length (buf : List Int) (i v : Int) :
    (writeTrace buf i v).length = buf.length := by
  unfold writeTrace
  split <;> simp

theorem traceStep_wellFormed (cfg : ScopeConfig) (st : LoopState) (s : Nat)
    (h : st.WellFormed) : (traceStep cfg st s).WellFormed := by
  obtain ⟨hpc, h0, hle, hw, hlen⟩ := h
  obtain ⟨b, ⟨-, hshape⟩, -⟩ := traceStep_shape cfg st s
  have hwid := traceStep_width cfg st s
  unfold LoopState.WellFormed
  rw [hwid]
  rcases hshape with ⟨-, -, hbuf, hx, hp⟩ | ⟨-, -, hbuf, hx, hp⟩
  · rw [hbuf, hx, hp]
    exact ⟨hpc, h0, hle, hw, hlen⟩
  · rw [hbuf, hx, hp, writeTrace_length]
    unfold plotColumn plotOffset
    split <;> refine ⟨?_, ?_, ?_, hw, hlen⟩ <;> omega

theorem loopInit_wellFormed (cfg : ScopeConfig) (gs : GScopeObject) (h : gs.WellFormed) :
    (loopInit cfg gs).WellFormed := by
  obtain ⟨hw, h0, hle, hlen⟩ := h
  exact ⟨rfl, h0, hle, hw, hlen⟩

theorem traceLoop_wellFormed (cfg : ScopeConfig) (l : List Nat) (st : LoopState)
    (h : st.WellFormed) : (traceLoop cfg st l).WellFormed := by
  induction l generalizing st with
  | nil => exact h
  | cons s l ih => exact ih _ (traceStep_wellFormed cfg st s h)

theorem plotColumn_bounds (st : LoopState) (h : st.WellFormed) :
    plotOffset st = plotColumn st ∧ 0 ≤ plotColumn st ∧ plotColumn st < st.gs.width := by
  obtain ⟨hpc, h0, hle, hw, hlen⟩ := h
  unfold plotColumn plotOffset
  split <;> refine ⟨?_, ?_, ?_⟩ <;> omega

theorem traceStep_accesses (cfg : ScopeConfig) (st : LoopState) (s : Nat)
    (h : st.WellFormed) (he : ∀ e ∈ st.events, e.accessInBounds st.gs.width) :
    ∀ e ∈ (traceStep cfg st s).events, e.accessInBounds st.gs.width := by
  obtain ⟨hoff, hc0, hcw⟩ := plotColumn_bounds st h
  obtain ⟨b, ⟨-, hshape⟩, -⟩ := traceStep_shape cfg st s
  rcases hshape with ⟨-, hev, -, -, -⟩ | ⟨-, hev, -, -, -⟩
  · rw [hev]
    exact he
  · rw [hev, hoff]
    intro e hmem
    rcases List.mem_append.mp hmem with hm | hm
    · exact he e hm
    · simp only [List.mem_cons, List.mem_singleton, List.not_mem_nil, or_false] at hm
      rcases hm with rfl | rfl | rfl | rfl
      · exact ⟨hc0, hcw⟩
      · trivial
      · trivial
      · exact ⟨hc0, hcw⟩

theorem traceLoop_accesses (cfg : ScopeConfig) (l : List Nat) (st : LoopState)
    (h : st.WellFormed) (he : ∀ e ∈ st.events, e.accessInBounds st.gs.width) :
    ∀ e ∈ (traceLoop cfg st l).events, e.accessInBounds st.gs.width := by
  induction l generalizing st with
  | nil => exact he
  | cons s l ih =>
    have := ih (traceStep cfg st s) (traceStep_wellFormed cfg st s h)
      (by rw [traceStep_width]; exact traceStep_accesses cfg st s h he)
    rw [traceStep_width] at this
    exact this

theorem traceLoop_gs_frame (cfg : ScopeConfig) (gs : GScopeObject) (l : List Nat) :
    (traceLoop cfg (loopInit cfg gs) l).gs.x = gs.x ∧
    (traceLoop cfg (loopInit cfg gs) l).gs.y = gs.y ∧
    (traceLoop cfg (loopInit cfg gs) l).gs.width = gs.width ∧
    (traceLoop cfg (loopInit cfg gs) l).gs.color = gs.color ∧
    (traceLoop cfg (loopInit cfg gs) l).gs.bgcolor = gs.bgcolor ∧
    (traceLoop cfg (loopInit cfg gs) l).yoffset = yoffsetOf cfg gs.height := by
  have h := traceLoop_frame cfg l (loopInit cfg gs)
  exact ⟨congrArg (fun f => f.1) h, congrArg (fun f => f.2.1) h, congrArg (fun f => f.2.2.1) h,
    congrArg (fun f => f.2.2.2.2.1) h, congrArg (fun f => f.2.2.2.2.2.1) h,
    congrArg (fun f => f.2.2.2.2.2.2.2.2) h⟩

/-! ### Plotting and the trace buffer -/

/-- C11: in a call of `gwinWaitForScopeTrace` on a well-formed scope, a sample
`s` that is drawn (met after the samples `pre`, on any drawing branch) is
drawn at column `col` (the cursor, or 0 after a reset) with exactly two pixel
writes, in this order: `(gh->x + col, gh->y + old)` in the background colour,
where `old` is the trace-buffer entry at index `col` before the sample, then
`(gh->x + col, gh->y + y)` in the drawing colour; afterwards the buffer holds
`y` at index `col` and every other entry is as before. -/
theorem plotted_sample_erases_then_draws (cfg : ScopeConfig) (gs : GScopeObject)
    (pre : List Nat) (s : Nat) (b : Branch) (hgs : gs.WellFormed)
    (hb : (traceStep cfg (traceLoop cfg (loopInit cfg gs) pre) s).branches =
      (traceLoop cfg (loopInit cfg gs) pre).branches ++ [b])
    (hd : b.draws = true) :
    ∃ old,
      (traceLoop cfg (loopInit cfg gs) pre).gs.lastscopetrace[
        (plotColumn (traceLoop cfg (loopInit cfg gs) pre)).toNat]? = some old ∧
      0 ≤ plotColumn (traceLoop cfg (loopInit cfg gs) pre) ∧
      plotColumn (traceLoop cfg (loopInit cfg gs) pre) < gs.width ∧
      (traceStep cfg (traceLoop cfg (loopInit cfg gs) pre) s).events =
        (traceLoop cfg (loopInit cfg gs) pre).events ++
          [ScopeEvent.traceRead (plotColumn (traceLoop cfg (loopInit cfg gs) pre)),
            ScopeEvent.drawPixel (gs.x + plotColumn (traceLoop cfg (loopInit cfg gs) pre))
              (gs.y + old) gs.bgcolor,
            ScopeEvent.drawPixel (gs.x + plotColumn (traceLoop cfg (loopInit cfg gs) pre))
              (gs.y + scaleSample cfg (yoffsetOf cfg gs.height) s) gs.color,
            ScopeEvent.traceWrite (plotColumn (traceLoop cfg (loopInit cfg gs) pre))
              (scaleSample cfg (yoffsetOf cfg gs.height) s)] ∧
      pixelOps (traceStep cfg (traceLoop cfg (loopInit cfg gs) pre) s).events =
        pixelOps (traceLoop cfg (loopInit cfg gs) pre).events ++
          [ScopeEvent.drawPixel (gs.x + plotColumn (traceLoop cfg (loopInit cfg gs) pre))
              (gs.y + old) gs.bgcolor,
            ScopeEvent.drawPixel (gs.x + plotColumn (traceLoop cfg (loopInit cfg gs) pre))
              (gs.y + scaleSample cfg (yoffsetOf cfg gs.height) s) gs.color] ∧
      (traceStep cfg (traceLoop cfg (loopInit cfg gs) pre) s).gs.lastscopetrace[
        (plotColumn (traceLoop cfg (loopInit cfg gs) pre)).toNat]?
          = some (scaleSample cfg (yoffsetOf cfg gs.height) s) ∧
      (∀ i, i ≠ (plotColumn (traceLoop cfg (loopInit cfg gs) pre)).toNat →
        (traceStep cfg (traceLoop cfg (loopInit cfg gs) pre) s).gs.lastscopetrace[i]? =
          (traceLoop cfg (loopInit cfg gs) pre).gs.lastscopetrace[i]?) := by
  obtain ⟨fx, fy, fw, fc, fb, fyo⟩ := traceLoop_gs_frame cfg gs pre
  have hwf := traceLoop_wellFormed cfg pre _ (loopInit_wellFormed cfg gs hgs)
  generalize traceLoop cfg (loopInit cfg gs) pre = st at *
  obtain ⟨hoff, hc0, hcw⟩ := plotColumn_bounds st hwf
  obtain ⟨hpc, h0, hle, hw, hlen⟩ := hwf
  obtain ⟨b1, ⟨hb1, hshape⟩, -⟩ := traceStep_shape cfg st s
  have hbb : b1 = b := by
    rw [hb] at hb1
    simpa using (List.append_cancel_left hb1).symm
  subst hbb
  rcases hshape with ⟨hnd, -⟩ | ⟨-, hev, hbuf, -, -⟩
  · rw [hd] at hnd
    exact absurd hnd (by simp)
  · rw [hoff, fx, fy, fc, fb, fyo] at hev
    rw [hoff, fyo] at hbuf
    rw [fw] at hcw hlen
    have hidx : (plotColumn st).toNat < st.gs.lastscopetrace.length := by omega
    have hread : readTrace st.gs.lastscopetrace (plotColumn st) =
        st.gs.lastscopetrace[(plotColumn st).toNat] := by
      unfold readTrace
      rw [if_pos hc0, List.getD_eq_getElem _ _ hidx]
    refine ⟨st.gs.lastscopetrace[(plotColumn st).toNat], List.getElem?_eq_getElem hidx,
      hc0, hcw, ?_, ?_, ?_, ?_⟩
    · rw [hev, hread]
    · rw [hev, hread, pixelOps_append]
      rfl
    · rw [hbuf]
      unfold writeTrace
      rw [if_pos hc0, List.getElem?_set_self hidx]
    · intro i hi
      rw [hbuf]
      unfold writeTrace
      rw [if_pos hc0, List.getElem?_set_ne (Ne.symm hi)]

theorem plotted_sample_erases_then_draws_witness :
    ∃ old,
      (traceLoop rampConfig (loopInit rampConfig midScope) [100]).gs.lastscopetrace[
        (plotColumn (traceLoop rampConfig (loopInit rampConfig midScope) [100])).toNat]?
          = some old ∧
      0 ≤ plotColumn (traceLoop rampConfig (loopInit rampConfig midScope) [100]) ∧
      plotColumn (traceLoop rampConfig (loopInit rampConfig midScope) [100]) < midScope.width ∧
      (traceStep rampConfig (traceLoop rampConfig (loopInit rampConfig midScope) [100]) 80).events =
        (traceLoop rampConfig (loopInit rampConfig midScope) [100]).events ++
          [ScopeEvent.traceRead (plotColumn (traceLoop rampConfig (loopInit rampConfig midScope) [100])),
            ScopeEvent.drawPixel
              (midScope.x + plotColumn (traceLoop rampConfig (loopInit rampConfig midScope) [100]))
              (midScope.y + old) midScope.bgcolor,
            ScopeEvent.drawPixel
              (midScope.x + plotColumn (traceLoop rampConfig (loopInit rampConfig midScope) [100]))
              (midScope.y + scaleSample rampConfig (yoffsetOf rampConfig midScope.height) 80)
              midScope.color,
            ScopeEvent.traceWrite
              (plotColumn (traceLoop rampConfig (loopInit rampConfig midScope) [100]))
              (scaleSample rampConfig (yoffsetOf rampConfig midScope.height) 80)] :=
  (plotted_sample_erases_then_draws rampConfig midScope [100] 80 Branch.plotted
    ⟨by decide, by decide, by decide, by decide⟩ (by decide) rfl).imp
    fun _ h => ⟨h.1, h.2.1, h.2.2.1, h.2.2.2.1⟩

/-- C17: for a well-formed scope (width > 0, `0 <= nextx <= width`, trace
buffer of `width` entries) and every sample block, every read and every
write of the trace buffer made by `gwinWaitForScopeTrace` is at an index `i`
with `0 <= i < width`; after every part of the block the pointer `pc` is at
offset `x`; and on return `0 <= nextx <= width` with the buffer still of
`width` entries, so the object is well-formed for the next call. -/
theorem trace_buffer_accesses_in_bounds (cfg : ScopeConfig) (gs : GScopeObject)
    (samples : List Nat) (hgs : gs.WellFormed) :
    (∀ i, ScopeEvent.traceRead i ∈ (gwinWaitForScopeTrace cfg gs samples).events →
      0 ≤ i ∧ i < gs.width) ∧
    (∀ i v, ScopeEvent.traceWrite i v ∈ (gwinWaitForScopeTrace cfg gs samples).events →
      0 ≤ i ∧ i < gs.width) ∧
    (∀ pre post, samples = pre ++ post →
      (traceLoop cfg (loopInit cfg gs) pre).pc = (traceLoop cfg (loopInit cfg gs) pre).x) ∧
    0 ≤ (gwinWaitForScopeTrace cfg gs samples).gs.nextx ∧
    (gwinWaitForScopeTrace cfg gs samples).gs.nextx ≤ gs.width ∧
    (gwinWaitForScopeTrace cfg gs samples).gs.WellFormed := by
  have hinit := loopInit_wellFormed cfg gs hgs
  have hacc := traceLoop_accesses cfg samples (loopInit cfg gs) hinit
    (by
      intro e he
      unfold loopInit at he
      simp only at he
      split at he
      · simp only [List.mem_singleton] at he
        subst he
        trivial
      · simp at he)
  have hwf := traceLoop_wellFormed cfg samples _ hinit
  have hw : (traceLoop cfg (loopInit cfg gs) samples).gs.width = gs.width :=
    traceLoop_width cfg samples _
  obtain ⟨hpc, h0, hle, hpos, hlen⟩ := hwf
  rw [hw] at hle hpos hlen
  have hexit : (loopExit cfg (traceLoop cfg (loopInit cfg gs) samples)).nextx =
        (traceLoop cfg (loopInit cfg gs) samples).x ∧
      (loopExit cfg (traceLoop cfg (loopInit cfg gs) samples)).width = gs.width ∧
      (loopExit cfg (traceLoop cfg (loopInit cfg gs) samples)).lastscopetrace =
        (traceLoop cfg (loopInit cfg gs) samples).gs.lastscopetrace := by
    unfold loopExit
    split <;> exact ⟨rfl, hw, rfl⟩
  refine ⟨?_, ?_, ?_, ?_, ?_, ?_⟩
  · intro i hi
    exact hacc _ hi
  · intro i v hi
    exact hacc _ hi
  · intro pre post _
    exact (traceLoop_wellFormed cfg pre _ hinit).1
  · show 0 ≤ (loopExit cfg (traceLoop cfg (loopInit cfg gs) samples)).nextx
    rw [hexit.1]
    exact h0
  · show (loopExit cfg (traceLoop cfg (loopInit cfg gs) samples)).nextx ≤ gs.width
    rw [hexit.1]
    exact hle
  · show (loopExit cfg (traceLoop cfg (loopInit cfg gs) samples)).WellFormed
    unfold GScopeObject.WellFormed
    rw [hexit.1, hexit.2.1, hexit.2.2]
    exact ⟨hpos, h0, hle, hlen⟩

theorem trace_buffer_accesses_in_bounds_witness :
    0 ≤ (gwinWaitForScopeTrace rampConfig midScope [100, 80, 60, 80, 100]).gs.nextx ∧
    (gwinWaitForScopeTrace rampConfig midScope [100, 80, 60, 80, 100]).gs.nextx
      ≤ midScope.width :=
  ⟨(trace_buffer_accesses_in_bounds rampConfig midScope [100, 80, 60, 80, 100]
      ⟨by decide, by decide, by decide, by decide⟩).2.2.2.1,
   (trace_buffer_accesses_in_bounds rampConfig midScope [100, 80, 60, 80, 100]
      ⟨by decide, by decide, by decide, by decide⟩).2.2.2.2.1⟩

/-! ### The last value and held traces -/

theorem plot_lasty (cfg : ScopeConfig) (st : LoopState) (y : Int) (b : Branch)
    (hm : cfg.triggerMethod ≠ TriggerMethod.none) : (plot cfg st y b).gs.lasty = y := by
  simp [plot, hm]

theorem triggerStep_lasty (cfg : ScopeConfig) (st : LoopState) (y : Int)
    (hm : cfg.triggerMethod ≠ TriggerMethod.none) : (triggerStep cfg st y).gs.lasty = y := by
  obtain ⟨⟨gx, gy, gw, gh, gc, gb, buf, nx, ly, gsm⟩, x, pc, yo, rdy, fl, sm, ev, br⟩ := st
  cases hm1 : cfg.triggerMethod <;> cases rdy <;>
    by_cases c3 : fl + 1 < FLATLINE_SAMPLES <;> by_cases c1 : gsm ≤ y <;>
    rcases lt_trichotomy y ly with c | c | c <;>
    first
    | exact absurd hm1 hm
    | (have c2 : y = ly := c
       subst c2
       simp [triggerStep, plot, skip, resetCursor, hm1, c1, c3])
    | (have c4 : y > ly := c
       have c2 : ¬ y = ly := ne_of_gt c4
       simp [triggerStep, plot, skip, resetCursor, hm1, c1, c2, c3, c4])
    | (have c5 : y < ly := c
       have c2 : ¬ y = ly := ne_of_lt c5
       have c6 : ¬ ly < y := not_lt_of_gt c5
       simp [triggerStep, plot, skip, resetCursor, hm1, c1, c2, c3, c6])

theorem traceStep_lasty (cfg : ScopeConfig) (st : LoopState) (s : Nat)
    (hm : cfg.triggerMethod ≠ TriggerMethod.none) :
    (traceStep cfg st s).gs.lasty = scaleSample cfg st.yoffset s := by
  simp only [traceStep]
  generalize scaleSample cfg st.yoffset s = y
  generalize (if cfg.triggerMethod = TriggerMethod.minValue ∧ y > st.scopemin then
    ({ st with scopemin := y } : LoopState) else st) = A
  by_cases hx : A.x ≥ A.gs.width
  · rw [if_pos hx]
    cases hm1 : cfg.triggerMethod with
    | none => exact absurd hm1 hm
    | positiveRamp => exact triggerStep_lasty cfg _ _ hm
    | minValue => exact triggerStep_lasty cfg _ _ hm
  · rw [if_neg hx]
    exact plot_lasty cfg _ _ _ hm

/-- C18: in both trigger policies, after the loop of `gwinWaitForScopeTrace`
has processed a sample, on whichever branch, `gs->lasty` is that sample's
scaled value `y`; so after the samples `pre ++ [s]` of a call the value the
next sample is compared with is the scaled value of `s`, and a call on the
non-empty block `pre ++ [s]` returns with `gs->lasty` equal to the scaled
value of the block's last sample. -/
theorem lasty_is_scaled_value_of_last_sample (cfg : ScopeConfig) (gs : GScopeObject)
    (pre : List Nat) (s : Nat) (hm : cfg.triggerMethod ≠ TriggerMethod.none) :
    (∀ st : LoopState, (traceStep cfg st s).gs.lasty = scaleSample cfg st.yoffset s) ∧
    (traceLoop cfg (loopInit cfg gs) (pre ++ [s])).gs.lasty
      = scaleSample cfg (yoffsetOf cfg gs.height) s ∧
    (gwinWaitForScopeTrace cfg gs (pre ++ [s])).gs.lasty
      = scaleSample cfg (yoffsetOf cfg gs.height) s := by
  have h2 : (traceLoop cfg (loopInit cfg gs) (pre ++ [s])).gs.lasty
      = scaleSample cfg (yoffsetOf cfg gs.height) s := by
    rw [traceLoop_snoc, traceStep_lasty cfg _ s hm, traceLoop_yoffset]
    rfl
  refine ⟨fun st => traceStep_lasty cfg st s hm, h2, ?_⟩
  show (loopExit cfg (traceLoop cfg (loopInit cfg gs) (pre ++ [s]))).lasty = _
  rw [← h2]
  unfold loopExit
  split <;> rfl

theorem lasty_is_scaled_value_of_last_sample_witness :
    (gwinWaitForScopeTrace minConfig sampleScope ([60, 100] ++ [120])).gs.lasty
      = scaleSample minConfig (yoffsetOf minConfig sampleScope.height) 120 :=
  (lasty_is_scaled_value_of_last_sample minConfig sampleScope [60, 100] 120
    (by decide)).2.2

/-- C19: in both trigger policies, a sample met with the cursor at the trace
end (`x >= width`) that fires no trigger (its branch `b` is not a trigger
branch) causes no event at all, so no pixel operation, and leaves the trace
buffer, the cursor `x` and the pointer `pc` as they were; the state after it
differs from the state before at most in `gs->lasty`, the armed flag, the
flat-line count and the running extreme (which changes in the minimum-value
policy only), apart from the branch log. -/
theorem untriggered_sample_at_trace_end_holds_trace (cfg : ScopeConfig) (st : LoopState)
    (s : Nat) (b : Branch) (hm : cfg.triggerMethod ≠ TriggerMethod.none)
    (hx : st.x ≥ st.gs.width)
    (hb : (traceStep cfg st s).branches = st.branches ++ [b])
    (hnt : b.isTrigger = false) :
    (traceStep cfg st s).events = st.events ∧
    pixelOps (traceStep cfg st s).events = pixelOps st.events ∧
    (traceStep cfg st s).gs.lastscopetrace = st.gs.lastscopetrace ∧
    (traceStep cfg st s).x = st.x ∧ (traceStep cfg st s).pc = st.pc ∧
    traceStep cfg st s =
      { st with
        gs := { st.gs with lasty := (traceStep cfg st s).gs.lasty }
        rdytrigger := (traceStep cfg st s).rdytrigger
        flsamples := (traceStep cfg st s).flsamples
        scopemin := (traceStep cfg st s).scopemin
        branches := st.branches ++ [b] } ∧
    (cfg.triggerMethod = TriggerMethod.positiveRamp →
      (traceStep cfg st s).scopemin = st.scopemin) := by
  obtain ⟨b1, ⟨hb1, hshape⟩, -, hb2⟩ := traceStep_shape cfg st s
  have hbb : b1 = b := by
    rw [hb] at hb1
    simpa using (List.append_cancel_left hb1).symm
  subst hbb
  obtain ⟨hnw, hnp⟩ := hb2 hx hm
  have hnd : b1.draws = false := by
    cases b1 <;> simp_all [Branch.draws, Branch.isTrigger]
  rcases hshape with ⟨-, hev, hbuf, hx1, hpc1⟩ | ⟨hd, -⟩
  · have hfr := traceStep_frame cfg st s
    have hsm : cfg.triggerMethod = TriggerMethod.positiveRamp →
        (traceStep cfg st s).scopemin = st.scopemin := by
      intro hp
      unfold traceStep triggerStep plot skip resetCursor
      simp only [hp, reduceCtorEq, false_and, if_false]
      repeat' split
      all_goals rfl
    refine ⟨hev, by rw [hev], hbuf, hx1, hpc1, ?_, hsm⟩
    generalize traceStep cfg st s = st1 at *
    obtain ⟨⟨gx, gy, gw, gh, gc, gb, buf, nx, ly, gsm⟩, x, pc, yo, rdy, fl, sm, ev, br⟩ := st
    obtain ⟨⟨gx1, gy1, gw1, gh1, gc1, gb1, buf1, nx1, ly1, gsm1⟩, x1, pc1, yo1, rdy1, fl1, sm1,
      ev1, br1⟩ := st1
    simp only [LoopState.frame, Prod.mk.injEq] at hfr
    simp only at hev hbuf hx1 hpc1 hb
    obtain ⟨rfl, rfl, rfl, rfl, rfl, rfl, rfl, rfl, rfl⟩ := hfr
    subst hev hbuf hx1 hpc1 hb
    rfl
  · rw [hnd] at hd
    exact absurd hd (by simp)

theorem untriggered_sample_at_trace_end_holds_trace_witness :
    (traceStep rampConfig (loopInit rampConfig sampleScope) 60).events
      = (loopInit rampConfig sampleScope).events ∧
    pixelOps (traceStep rampConfig (loopInit rampConfig sampleScope) 60).events
      = pixelOps (loopInit rampConfig sampleScope).events :=
  ⟨(untriggered_sample_at_trace_end_holds_trace rampConfig (loopInit rampConfig sampleScope)
      60 Branch.armSkip (by decide) (by decide) (by decide) rfl).1,
   (untriggered_sample_at_trace_end_holds_trace rampConfig (loopInit rampConfig sampleScope)
      60 Branch.armSkip (by decide) (by decide) (by decide) rfl).2.1⟩

/-! ### The stored extreme of the minimum-value policy -/

theorem plot_scopemin (cfg : ScopeConfig) (st : LoopState) (y : Int) (b : Branch) :
    (plot cfg st y b).scopemin = st.scopemin :=
  rfl

theorem triggerStep_scopemin (cfg : ScopeConfig) (st : LoopState) (y : Int) :
    (triggerStep cfg st y).scopemin = st.scopemin := by
  obtain ⟨⟨gx, gy, gw, gh, gc, gb, buf, nx, ly, gsm⟩, x, pc, yo, rdy, fl, sm, ev, br⟩ := st
  cases hm1 : cfg.triggerMethod <;> cases rdy <;>
    by_cases c3 : fl + 1 < FLATLINE_SAMPLES <;> by_cases c1 : gsm ≤ y <;>
    rcases lt_trichotomy y ly with c | c | c <;>
    first
    | (have c2 : y = ly := c
       subst c2
       simp [triggerStep, plot, skip, resetCursor, hm1, c1, c3])
    | (have c4 : y > ly := c
       have c2 : ¬ y = ly := ne_of_gt c4
       simp [triggerStep, plot, skip, resetCursor, hm1, c1, c2, c3, c4])
    | (have c5 : y < ly := c
       have c2 : ¬ y = ly := ne_of_lt c5
       have c6 : ¬ ly < y := not_lt_of_gt c5
       simp [triggerStep, plot, skip, resetCursor, hm1, c1, c2, c3, c6])

theorem traceStep_scopemin (cfg : ScopeConfig) (st : LoopState) (s : Nat)
    (hm : cfg.triggerMethod = TriggerMethod.minValue) :
    (traceStep cfg st s).scopemin = max st.scopemin (scaleSample cfg st.yoffset s) := by
  simp only [traceStep, hm, true_and]
  generalize scaleSample cfg st.yoffset s = y
  have hA : (if y > st.scopemin then ({ st with scopemin := y } : LoopState) else st).scopemin
      = max st.scopemin y := by
    split
    · show y = max st.scopemin y
      omega
    · show st.scopemin = max st.scopemin y
      omega
  generalize (if y > st.scopemin then ({ st with scopemin := y } : LoopState) else st) = A at hA ⊢
  rw [← hA]
  split
  · exact triggerStep_scopemin cfg A y
  · rfl

theorem traceLoop_scopemin (cfg : ScopeConfig) (hm : cfg.triggerMethod = TriggerMethod.minValue)
    (l : List Nat) (st : LoopState) :
    (traceLoop cfg st l).scopemin =
      (l.map (scaleSample cfg st.yoffset)).foldl max st.scopemin := by
  induction l generalizing st with
  | nil => rfl
  | cons s l ih =>
    rw [traceLoop_cons, ih, traceStep_scopemin cfg st s hm, traceStep_yoffset]
    rfl

/-- C13 (as the code has it): in the minimum-value policy, after each call of
`gwinWaitForScopeTrace` the stored `gs->scopemin` is the greatest scaled value
`y` among all samples of that call's block, plotted or skipped, and 0 if no
sample of the block has `y > 0`; during a call `gs->scopemin` is not written,
so the arming test of a call compares against the value the previous call
stored. -/
theorem scopemin_is_block_maximum (cfg : ScopeConfig) (gs : GScopeObject)
    (samples : List Nat) (hm : cfg.triggerMethod = TriggerMethod.minValue) :
    (gwinWaitForScopeTrace cfg gs samples).gs.scopemin =
      blockExtreme (samples.map (scaleSample cfg (yoffsetOf cfg gs.height))) ∧
    ∀ pre post, samples = pre ++ post →
      (traceLoop cfg (loopInit cfg gs) pre).gs.scopemin = gs.scopemin := by
  constructor
  · show (loopExit cfg (traceLoop cfg (loopInit cfg gs) samples)).scopemin = _
    unfold loopExit
    simp only [hm, if_true]
    rw [traceLoop_scopemin cfg hm]
    rfl
  · intro pre post _
    exact traceLoop_gs_scopemin cfg pre (loopInit cfg gs)

theorem scopemin_is_block_maximum_witness :
    (gwinWaitForScopeTrace minConfig sampleScope [0, 100, 120]).gs.scopemin =
      blockExtreme ([0, 100, 120].map
        (scaleSample minConfig (yoffsetOf minConfig sampleScope.height))) :=
  (scopemin_is_block_maximum minConfig sampleScope [0, 100, 120] rfl).1

/-- C13 as stated fails: in the minimum-value policy, with the cursor at the
trace end, the block 0, 100, 120 scales to 114, 64, 54; the first sample is
skipped and only the other two are plotted (greatest plotted value 64), yet
the call stores `gs->scopemin = 114`, the value of the skipped sample. -/
theorem scopemin_counts_skipped_samples :
    [0, 100, 120].map (scaleSample minConfig (yoffsetOf minConfig sampleScope.height))
      = [114, 64, 54] ∧
    (gwinWaitForScopeTrace minConfig sampleScope [0, 100, 120]).branches
      = [Branch.armSkip, Branch.edgeTrigger, Branch.plotted] ∧
    pixelOps (gwinWaitForScopeTrace minConfig sampleScope [0, 100, 120]).events
      = [ScopeEvent.drawPixel 10 20 0, ScopeEvent.drawPixel 10 84 1,
         ScopeEvent.drawPixel 11 20 0, ScopeEvent.drawPixel 11 74 1] ∧
    (gwinWaitForScopeTrace minConfig sampleScope [0, 100, 120]).gs.scopemin = 114 := by
  decide

/-! ### Scope creation -/

/-- C12: `gwinCreateScope` returns a null handle whenever the base window
creation, the trace-buffer allocation or the sample-buffer allocation fails,
and then makes no call into the audio-in driver (no `gaudinInit`,
`gaudinSetBSem`, `gaudinStart`); when all three succeed it initialises and
starts the driver and returns a non-null handle with `nextx = 0`, a trace
buffer of `width` entries and, under either trigger policy,
`lasty = height/2`. -/
theorem create_scope_null_on_failure (cfg : ScopeConfig) (env : CreateEnv) (x y cx cy : Int)
    (channel frequency : Nat) :
    ((env.window = none ∨ env.traceBlock = none ∨ env.audioBlock = false) →
      (gwinCreateScope cfg env x y cx cy channel frequency).handle = none ∧
      ∀ c ∈ (gwinCreateScope cfg env x y cx cy channel frequency).calls,
        c.isAudioDriver = false) ∧
    ((env.window ≠ none ∧ env.traceBlock ≠ none ∧ env.audioBlock = true) →
      ∃ gs, (gwinCreateScope cfg env x y cx cy channel frequency).handle = some gs ∧
        gs.nextx = 0 ∧
        gs.lastscopetrace.length = gs.width.toNat ∧
        (cfg.triggerMethod ≠ TriggerMethod.none → gs.lasty = Int.tdiv gs.height 2) ∧
        CreateCall.gaudinInit channel frequency AUDIOBUFSZ (AUDIOBUFSZ / 2) ∈
          (gwinCreateScope cfg env x y cx cy channel frequency).calls ∧
        CreateCall.gaudinStart ∈
          (gwinCreateScope cfg env x y cx cy channel frequency).calls) := by
  obtain ⟨window, traceBlock, audioBlock⟩ := env
  constructor
  · intro h
    cases window with
    | none => simp [gwinCreateScope, CreateCall.isAudioDriver]
    | some gs0 =>
      cases traceBlock with
      | none => simp [gwinCreateScope, CreateCall.isAudioDriver]
      | some block =>
        cases audioBlock with
        | false => simp [gwinCreateScope, CreateCall.isAudioDriver]
        | true => simp at h
  · rintro ⟨h1, h2, h3⟩
    cases window with
    | none => exact absurd rfl h1
    | some gs0 =>
      cases traceBlock with
      | none => exact absurd rfl h2
      | some block =>
        simp only at h3
        subst h3
        refine ⟨_, rfl, ?_, ?_, ?_, by simp [gwinCreateScope], by simp [gwinCreateScope]⟩
        · unfold initTrigger
          split <;> rfl
        · unfold initTrigger
          split <;> simp
        · intro hm
          unfold initTrigger
          split
          · rfl
          · rfl
          · rename_i hn
            exact absurd hn hm

theorem create_scope_null_on_failure_witness :
    ∃ gs, (gwinCreateScope minConfig goodCreateEnv 10 20 3 100 0 8000).handle = some gs ∧
      gs.nextx = 0 ∧
      gs.lastscopetrace.length = gs.width.toNat ∧
      (minConfig.triggerMethod ≠ TriggerMethod.none → gs.lasty = Int.tdiv gs.height 2) ∧
      CreateCall.gaudinInit 0 8000 AUDIOBUFSZ (AUDIOBUFSZ / 2) ∈
        (gwinCreateScope minConfig goodCreateEnv 10 20 3 100 0 8000).calls ∧
      CreateCall.gaudinStart ∈
        (gwinCreateScope minConfig goodCreateEnv 10 20 3 100 0 8000).calls :=
  (create_scope_null_on_failure minConfig goodCreateEnv 10 20 3 100 0 8000).2
    ⟨by decide, by simp [goodCreateEnv], rfl⟩

/-! ### Images larger than, or as large as, the widget -/

theorem redraw_open_log (cfg : ImageConfig) (gh : GImageObject)
    (hopen : gdispImageIsOpen gh.image = true) :
    _redraw cfg gh =
      [ImageCall.isOpen] ++ (redrawHoriz cfg.defaultBgColor gh (redrawInit gh)).2 ++
        (redrawVert cfg.defaultBgColor gh
          (redrawHoriz cfg.defaultBgColor gh (redrawInit gh)).1).2 ++
        [ImageCall.setBgColor cfg.defaultBgColor,
          ImageCall.imageDraw
            (redrawVert cfg.defaultBgColor gh
              (redrawHoriz cfg.defaultBgColor gh (redrawInit gh)).1).1.x
            (redrawVert cfg.defaultBgColor gh
              (redrawHoriz cfg.defaultBgColor gh (redrawInit gh)).1).1.y
            (redrawVert cfg.defaultBgColor gh
              (redrawHoriz cfg.defaultBgColor gh (redrawInit gh)).1).1.w
            (redrawVert cfg.defaultBgColor gh
              (redrawHoriz cfg.defaultBgColor gh (redrawInit gh)).1).1.h
            (redrawVert cfg.defaultBgColor gh
              (redrawHoriz cfg.defaultBgColor gh (redrawInit gh)).1).1.dx
            (redrawVert cfg.defaultBgColor gh
              (redrawHoriz cfg.defaultBgColor gh (redrawInit gh)).1).1.dy] := by
  unfold _redraw
  simp [hopen]

theorem redrawHoriz_keeps_vertical (bg : Nat) (gh : GImageObject) (v : RedrawVars) :
    (redrawHoriz bg gh v).1.y = v.y ∧ (redrawHoriz bg gh v).1.h = v.h ∧
      (redrawHoriz bg gh v).1.dy = v.dy := by
  unfold redrawHoriz
  split
  · exact ⟨rfl, rfl, rfl⟩
  · split <;> exact ⟨rfl, rfl, rfl⟩

theorem redrawVert_keeps_horizontal (bg : Nat) (gh : GImageObject) (v : RedrawVars) :
    (redrawVert bg gh v).1.x = v.x ∧ (redrawVert bg gh v).1.w = v.w ∧
      (redrawVert bg gh v).1.dx = v.dx := by
  unfold redrawVert
  split
  · exact ⟨rfl, rfl, rfl⟩
  · split <;> exact ⟨rfl, rfl, rfl⟩

/-- C14: in `_redraw` with an open image, the log is the open-state query, the
fills of the horizontal step, the fills of the vertical step, the background
colour and the image draw.  If the image is wider than the widget, the
horizontal step issues no fill and the image is drawn with destination
`x = gh->x`, width `gh->width` and source offset
`(image width - gh->width)/2`; if the image is higher than the widget, the
vertical step issues no fill and the image is drawn with destination
`y = gh->y`, height `gh->height` and source offset
`(image height - gh->height)/2`. -/
theorem redraw_larger_image_centred_without_fill (cfg : ImageConfig) (gh : GImageObject)
    (hopen : gdispImageIsOpen gh.image = true) :
    ∃ X Y W H DX DY hfills vfills,
      _redraw cfg gh = [ImageCall.isOpen] ++ hfills ++ vfills ++
        [ImageCall.setBgColor cfg.defaultBgColor, ImageCall.imageDraw X Y W H DX DY] ∧
      hfills = (redrawHoriz cfg.defaultBgColor gh (redrawInit gh)).2 ∧
      vfills = (redrawVert cfg.defaultBgColor gh
        (redrawHoriz cfg.defaultBgColor gh (redrawInit gh)).1).2 ∧
      (gh.image.width > gh.width →
        hfills = [] ∧ X = gh.x ∧ W = gh.width ∧
        DX = some ((gh.image.width - gh.width) / 2)) ∧
      (gh.image.height > gh.height →
        vfills = [] ∧ Y = gh.y ∧ H = gh.height ∧
        DY = some ((gh.image.height - gh.height) / 2)) := by
  refine ⟨_, _, _, _, _, _, _, _, redraw_open_log cfg gh hopen, rfl, rfl, ?_, ?_⟩
  · intro hgt
    have hd : Int.tdiv (gh.image.width - gh.width) 2 = (gh.image.width - gh.width) / 2 :=
      Int.tdiv_eq_ediv (by omega) (by norm_num)
    obtain ⟨hx, hw, hdx⟩ := redrawVert_keeps_horizontal cfg.defaultBgColor gh
      (redrawHoriz cfg.defaultBgColor gh (redrawInit gh)).1
    rw [hx, hw, hdx]
    have hnlt : ¬ gh.image.width < (redrawInit gh).w := by
      show ¬ gh.image.width < gh.width
      omega
    have hgt2 : gh.image.width > (redrawInit gh).w := hgt
    simp only [redrawHoriz, if_neg hnlt, if_pos hgt2]
    refine ⟨trivial, rfl, rfl, ?_⟩
    rw [← hd]
    rfl
  · intro hgt
    have hd : Int.tdiv (gh.image.height - gh.height) 2 = (gh.image.height - gh.height) / 2 :=
      Int.tdiv_eq_ediv (by omega) (by norm_num)
    obtain ⟨hy, hh, hdy⟩ := redrawHoriz_keeps_vertical cfg.defaultBgColor gh (redrawInit gh)
    have hh2 : (redrawHoriz cfg.defaultBgColor gh (redrawInit gh)).1.h = gh.height := hh
    have hy2 : (redrawHoriz cfg.defaultBgColor gh (redrawInit gh)).1.y = gh.y := hy
    have hnlt : ¬ gh.image.height < (redrawHoriz cfg.defaultBgColor gh (redrawInit gh)).1.h := by
      rw [hh2]
      omega
    have hgt2 : gh.image.height > (redrawHoriz cfg.defaultBgColor gh (redrawInit gh)).1.h := by
      rw [hh2]
      exact hgt
    simp only [redrawVert, if_neg hnlt, if_pos hgt2]
    refine ⟨trivial, hy2, hh2, ?_⟩
    rw [hh2, ← hd]

theorem redraw_larger_image_centred_without_fill_witness :
    ∃ X Y W H DX DY hfills vfills,
      _redraw sampleImageConfig largeImageWidget = [ImageCall.isOpen] ++ hfills ++ vfills ++
        [ImageCall.setBgColor sampleImageConfig.defaultBgColor,
          ImageCall.imageDraw X Y W H DX DY] ∧
      hfills = (redrawHoriz sampleImageConfig.defaultBgColor largeImageWidget
        (redrawInit largeImageWidget)).2 ∧
      vfills = (redrawVert sampleImageConfig.defaultBgColor largeImageWidget
        (redrawHoriz sampleImageConfig.defaultBgColor largeImageWidget
          (redrawInit largeImageWidget)).1).2 ∧
      (largeImageWidget.image.width > largeImageWidget.width →
        hfills = [] ∧ X = largeImageWidget.x ∧ W = largeImageWidget.width ∧
        DX = some ((largeImageWidget.image.width - largeImageWidget.width) / 2)) ∧
      (largeImageWidget.image.height > largeImageWidget.height →
        vfills = [] ∧ Y = largeImageWidget.y ∧ H = largeImageWidget.height ∧
        DY = some ((largeImageWidget.image.height - largeImageWidget.height) / 2)) :=
  redraw_larger_image_centred_without_fill sampleImageConfig largeImageWidget rfl

/-- C15, the code at the failing input: for an open image of exactly the
widget's size (9 x 8 in a 9 x 8 widget at (10, 20)) `_redraw` issues no fill
and draws the image over the whole widget, but the source offsets it passes to
`gdispImageDraw` are the locals `dx`, `dy` that no branch has assigned; with
equal width only (9 x 3) `dx` is unassigned, with equal height only (4 x 8)
`dy` is. -/
theorem redraw_same_size_offsets_unassigned :
    _redraw sampleImageConfig sameSizeWidget =
      [ImageCall.isOpen, ImageCall.setBgColor 7, ImageCall.imageDraw 10 20 9 8 none none] ∧
    _redraw sampleImageConfig { sampleWidget with image := { type := 1, width := 9, height := 3 } } =
      [ImageCall.isOpen, ImageCall.fillArea 10 20 9 2 7, ImageCall.fillArea 10 25 9 3 7,
        ImageCall.setBgColor 7, ImageCall.imageDraw 10 22 9 3 none (some 0)] ∧
    _redraw sampleImageConfig { sampleWidget with image := { type := 1, width := 4, height := 8 } } =
      [ImageCall.isOpen, ImageCall.fillArea 10 20 2 8 7, ImageCall.fillArea 16 20 3 8 7,
        ImageCall.setBgColor 7, ImageCall.imageDraw 12 20 4 8 (some 0) none] := by
  decide

/-! ### The redraw paints the widget rectangle exactly once -/

theorem paintedRects_append (a b : List ImageCall) :
    paintedRects (a ++ b) = paintedRects a ++ paintedRects b := by
  induction a with
  | nil => rfl
  | cons c a ih =>
    cases c <;> simp [paintedRects, ih]

theorem paintCount_append (a b : List ImageCall) (px py : Int) :
    paintCount (a ++ b) px py = paintCount a px py + paintCount b px py := by
  simp [paintCount, paintedRects_append]

theorem paintCount_fill (x y w h : Int) (bg : Nat) (px py : Int) :
    paintCount [ImageCall.fillArea x y w h bg] px py =
      if x ≤ px ∧ px < x + w ∧ y ≤ py ∧ py < y + h then 1 else 0 := by
  simp [paintCount, paintedRects, Rect.contains, List.countP_cons]

theorem paintCount_draw (x y w h : Int) (dx dy : Option Int) (px py : Int) :
    paintCount [ImageCall.imageDraw x y w h dx dy] px py =
      if x ≤ px ∧ px < x + w ∧ y ≤ py ∧ py < y + h then 1 else 0 := by
  simp [paintCount, paintedRects, Rect.contains, List.countP_cons]

theorem paintCount_optional_fill (c : Prop) [Decidable c] (x y w h : Int) (bg : Nat)
    (px py : Int) :
    paintCount (if c then [ImageCall.fillArea x y w h bg] else []) px py =
      if c ∧ x ≤ px ∧ px < x + w ∧ y ≤ py ∧ py < y + h then 1 else 0 := by
  by_cases hc : c
  · simp [hc, paintCount_fill]
  · simp [hc, paintCount, paintedRects]

theorem tdiv_two_bounds (a : Int) (h : 0 ≤ a) :
    2 * Int.tdiv a 2 ≤ a ∧ a < 2 * Int.tdiv a 2 + 2 := by
  rw [Int.tdiv_eq_ediv h (by norm_num)]
  omega

/-- C16: in `_redraw` with an open image, for widget size `W, H > 0` and image
size `w, h > 0`, every pixel lies in exactly one of the rectangles painted
(the fill areas and the destination rectangle of the image draw) if it is in
the widget rectangle `(gh->x, gh->y, W, H)`, and in none of them otherwise:
the painted rectangles are pairwise disjoint, lie inside the widget
rectangle, and together cover it. -/
theorem redraw_paints_each_widget_pixel_once (cfg : ImageConfig) (gh : GImageObject)
    (hopen : gdispImageIsOpen gh.image = true)
    (hW : 0 < gh.width) (hH : 0 < gh.height)
    (hw : 0 < gh.image.width) (hh : 0 < gh.image.height) (px py : Int) :
    paintCount (_redraw cfg gh) px py =
      if ({ x := gh.x, y := gh.y, w := gh.width, h := gh.height } : Rect).contains px py
      then 1 else 0 := by
  rw [redraw_open_log cfg gh hopen]
  obtain ⟨gx, gy, W, H, flags, ⟨ty, iw, ih⟩⟩ := gh
  simp only at hW hH hw hh
  have hI : paintCount [ImageCall.isOpen] px py = 0 := rfl
  have hS : ∀ c, paintCount [ImageCall.setBgColor c] px py = 0 := fun _ => rfl
  have hcons : ∀ (c d : ImageCall), [c, d] = [c] ++ [d] := fun _ _ => rfl
  have bx : iw < W → 2 * Int.tdiv (W - iw) 2 ≤ W - iw ∧ W - iw < 2 * Int.tdiv (W - iw) 2 + 2 :=
    fun h => tdiv_two_bounds (W - iw) (by omega)
  have by1 : ih < H → 2 * Int.tdiv (H - ih) 2 ≤ H - ih ∧ H - ih < 2 * Int.tdiv (H - ih) 2 + 2 :=
    fun h => tdiv_two_bounds (H - ih) (by omega)
  by_cases h1 : iw < W <;> by_cases h3 : iw > W <;>
    by_cases h2 : ih < H <;> by_cases h4 : ih > H <;>
    first
    | (exfalso
       omega)
    | (simp only [redrawHoriz, redrawVert, redrawInit, h1, h2, h3, h4, ↓reduceIte, hcons,
         paintCount_append, paintCount_optional_fill, paintCount_fill, paintCount_draw, hI, hS,
         Rect.contains, decide_eq_true_eq, List.append_nil, List.nil_append]
       generalize Int.tdiv (W - iw) 2 = dx at *
       generalize Int.tdiv (H - ih) 2 = dy at *
       split_ifs <;> omega)

theorem redraw_paints_each_widget_pixel_once_witness :
    paintCount (_redraw sampleImageConfig sampleWidget) 12 22 =
      if ({ x := sampleWidget.x, y := sampleWidget.y, w := sampleWidget.width,
            h := sampleWidget.height } : Rect).contains 12 22
      then 1 else 0 :=
  redraw_paints_each_widget_pixel_once sampleImageConfig sampleWidget rfl
    (by decide) (by decide) (by decide) (by decide) 12 22

/-! ### Rescaling -/

theorem toCoord_sub_toCoord (a b : Int) : toCoord (toCoord a - b) = toCoord (a - b) := by
  unfold toCoord
  omega

theorem toCoord_of_inRange (v : Int) (h1 : -32768 ≤ v) (h2 : v ≤ 32767) : toCoord v = v := by
  unfold toCoord
  omega

theorem scaleSample_eq_spec (cfg : ScopeConfig) (H : Int) (s : Nat) :
    scaleSample cfg (yoffsetOf cfg H) s = toCoord (specScaled cfg H s) := by
  unfold scaleSample specScaled yoffsetOf
  simp only [Nat.shiftRight_eq_div_pow, Nat.shiftLeft_eq, one_mul]
  split <;> exact toCoord_sub_toCoord _ _

/-- C5: for every raw sample `s`, window height `H` and any already processed
part `done` of the block, the scaled value `y` the loop computes for `s` is
`H/2 + 2^SCOPE_Y_BITS/2 - (s >> (GAUDIN_BITS_PER_SAMPLE - SCOPE_Y_BITS))` when
`GAUDIN_BITS_PER_SAMPLE > SCOPE_Y_BITS` and
`H/2 + 2^SCOPE_Y_BITS/2 - (s << (SCOPE_Y_BITS - GAUDIN_BITS_PER_SAMPLE))`
otherwise, in `coord_t` arithmetic: the shift is a division, respectively a
multiplication, by the power of two with no rounding term and no clamp, and
the result is kept modulo 2^16, so `y` is that value itself whenever it lies
in -32768 .. 32767.  This `y` is what the iteration uses: under a trigger
policy `gs->lasty` holds it afterwards, and when the sample is drawn it is the
row of the pixel drawn (relative to `gh->y`) and the value stored in the
trace buffer. -/
theorem scaled_value_is_pure_shift (cfg : ScopeConfig) (gs : GScopeObject)
    (done : List Nat) (s : Nat) :
    scaleSample cfg (traceLoop cfg (loopInit cfg gs) done).yoffset s
      = toCoord (specScaled cfg gs.height s) ∧
    (-32768 ≤ specScaled cfg gs.height s → specScaled cfg gs.height s ≤ 32767 →
      scaleSample cfg (traceLoop cfg (loopInit cfg gs) done).yoffset s
        = specScaled cfg gs.height s) ∧
    (cfg.triggerMethod ≠ TriggerMethod.none →
      (traceStep cfg (traceLoop cfg (loopInit cfg gs) done) s).gs.lasty
        = toCoord (specScaled cfg gs.height s)) ∧
    (∀ b, (traceStep cfg (traceLoop cfg (loopInit cfg gs) done) s).branches =
        (traceLoop cfg (loopInit cfg gs) done).branches ++ [b] → b.draws = true →
      (traceStep cfg (traceLoop cfg (loopInit cfg gs) done) s).events =
        (traceLoop cfg (loopInit cfg gs) done).events ++
          [ScopeEvent.traceRead (plotOffset (traceLoop cfg (loopInit cfg gs) done)),
            ScopeEvent.drawPixel (gs.x + plotColumn (traceLoop cfg (loopInit cfg gs) done))
              (gs.y + readTrace (traceLoop cfg (loopInit cfg gs) done).gs.lastscopetrace
                (plotOffset (traceLoop cfg (loopInit cfg gs) done))) gs.bgcolor,
            ScopeEvent.drawPixel (gs.x + plotColumn (traceLoop cfg (loopInit cfg gs) done))
              (gs.y + toCoord (specScaled cfg gs.height s)) gs.color,
            ScopeEvent.traceWrite (plotOffset (traceLoop cfg (loopInit cfg gs) done))
              (toCoord (specScaled cfg gs.height s))] ∧
      (traceStep cfg (traceLoop cfg (loopInit cfg gs) done) s).gs.lastscopetrace =
        writeTrace (traceLoop cfg (loopInit cfg gs) done).gs.lastscopetrace
          (plotOffset (traceLoop cfg (loopInit cfg gs) done))
          (toCoord (specScaled cfg gs.height s))) := by
  obtain ⟨fx, fy, -, fc, fb, fyo⟩ := traceLoop_gs_frame cfg gs done
  have hy : scaleSample cfg (traceLoop cfg (loopInit cfg gs) done).yoffset s
      = toCoord (specScaled cfg gs.height s) := by
    rw [fyo]
    exact scaleSample_eq_spec cfg gs.height s
  refine ⟨hy, ?_, ?_, ?_⟩
  · intro h1 h2
    rw [hy, toCoord_of_inRange _ h1 h2]
  · intro hm
    rw [traceStep_lasty cfg _ s hm, hy]
  · intro b hb hd
    obtain ⟨b1, ⟨hb1, hshape⟩, -⟩ := traceStep_shape cfg (traceLoop cfg (loopInit cfg gs) done) s
    have hbb : b1 = b := by
      rw [hb] at hb1
      simpa using (List.append_cancel_left hb1).symm
    subst hbb
    rcases hshape with ⟨hnd, -⟩ | ⟨-, hev, hbuf, -, -⟩
    · rw [hd] at hnd
      exact absurd hnd (by simp)
    · rw [hy, fx, fy, fc, fb] at hev
      rw [hy] at hbuf
      exact ⟨hev, hbuf⟩

theorem scaled_value_is_pure_shift_witness :
    scaleSample rampConfig (traceLoop rampConfig (loopInit rampConfig sampleScope) [100]).yoffset 60
      = specScaled rampConfig sampleScope.height 60 ∧
    (traceStep rampConfig (traceLoop rampConfig (loopInit rampConfig sampleScope) [100]) 60).gs.lasty
      = toCoord (specScaled rampConfig sampleScope.height 60) :=
  ⟨(scaled_value_is_pure_shift rampConfig sampleScope [100] 60).2.1 (by decide) (by decide),
   (scaled_value_is_pure_shift rampConfig sampleScope [100] 60).2.2.1 (by decide)⟩

end UGFX
